import Mathlib

/-!
Verification of the visiting-card hybrid OCR orchestration and
field-extraction pipeline.

This file shallowly embeds the relevant TypeScript sources:
  - src/services/hybridOcrService.ts   (strategy selection, fallback)
  - src/services/ocrService.ts         (layout analysis, field detection,
                                        cross-field validation; the file
                                        appears as src/unnamed/part_014)
  - src/services/parsers/emailParser.ts
  - src/services/parsers/phoneParser.ts (src/unnamed/part_016)
  - src/services/parsers/nameParser.ts

Strings are modelled as lists of characters (`Str`).  JavaScript regular
expressions used by the sources are embedded via a small backtracking
matcher (`RE`) whose greedy/ordered-alternation semantics matches the JS
engine on the concrete patterns in use.  JavaScript numbers appearing in
the confidence arithmetic are integers throughout, hence modelled by
`Int`.  Geometric quantities that JS computes with floating division
(thirds of the card height) are modelled with exact rationals; the
properties proved about them do not depend on rounding.

The CompanyParser module (src/services/parsers/companyParser.ts) is
embedded from its source as staged in the repository snapshot, where it
appears appended inside
src/docs/prd/6-detailed-epic-breakdown-web-prototype-focus.md.
-/

set_option maxRecDepth 20000
set_option maxHeartbeats 4000000

namespace VisitingCard

/-- Strings are lists of characters; string literals enter via `.data`. -/
abbrev Str := List Char

/-! ## Character classes (ASCII, as used by the JS sources) -/

/-- ASCII uppercase letter test, `[A-Z]`. -/
def isUpperC (c : Char) : Bool := 65 ≤ c.toNat && c.toNat ≤ 90

/-- ASCII lowercase letter test, `[a-z]`. -/
def isLowerC (c : Char) : Bool := 97 ≤ c.toNat && c.toNat ≤ 122

/-- ASCII letter test, `[a-zA-Z]`. -/
def isAlphaC (c : Char) : Bool := isUpperC c || isLowerC c

/-- ASCII digit test, `\d`. -/
def isDigitC (c : Char) : Bool := 48 ≤ c.toNat && c.toNat ≤ 57

/-- Alphanumeric test, `[a-zA-Z0-9]`. -/
def isAlnumC (c : Char) : Bool := isAlphaC c || isDigitC c

/-- Whitespace test for `\s`, `trim` and friends.  The sources only ever
see ASCII whitespace, so space, tab, newline and carriage return suffice. -/
def isWsC (c : Char) : Bool := c == ' ' || c == '\t' || c == '\n' || c == '\r'

/-- Word character test, `\w` = `[A-Za-z0-9_]`. -/
def isWordC (c : Char) : Bool := isAlnumC c || c == '_'

/-- JavaScript `toLowerCase` on an ASCII character. -/
def toLowerC (c : Char) : Char :=
  if 65 ≤ c.toNat && c.toNat ≤ 90 then Char.ofNat (c.toNat + 32) else c

/-- JavaScript `toUpperCase` on an ASCII character. -/
def toUpperC (c : Char) : Char :=
  if 97 ≤ c.toNat && c.toNat ≤ 122 then Char.ofNat (c.toNat - 32) else c

/-! ## String helpers mirroring the JavaScript string API -/

/-- JavaScript `toLowerCase`. -/
def lower (s : Str) : Str := s.map toLowerC

/-- JavaScript `toUpperCase`. -/
def upper (s : Str) : Str := s.map toUpperC

/-- JavaScript `trim`. -/
def trim (s : Str) : Str :=
  ((s.dropWhile isWsC).reverse.dropWhile isWsC).reverse

/-- JavaScript string truthiness: non-empty means truthy. -/
def truthy (s : Option Str) : Bool :=
  match s with
  | some v => !v.isEmpty
  | none => false

/-- JavaScript `split(sep)` for a single-character separator: splits at
every occurrence, keeping empty segments. -/
def jsSplit (sep : Char) (s : Str) : List Str :=
  match s with
  | [] => [[]]
  | c :: t =>
    let rest := jsSplit sep t
    if c == sep then [] :: rest
    else
      match rest with
      | [] => [[c]]
      | h :: r => (c :: h) :: r

/-- The idiom `line.split(' ').filter(w => w.length > 0)`. -/
def jsWords (s : Str) : List Str :=
  (jsSplit ' ' s).filter (fun w => !w.isEmpty)

/-- The idiom `text.split('\n').map(l => l.trim()).filter(l => l.length > 0)`. -/
def jsLines (s : Str) : List Str :=
  ((jsSplit '\n' s).map trim).filter (fun l => !l.isEmpty)

/-- Substring test: JavaScript `haystack.includes(needle)`. -/
def containsSub (hay needle : Str) : Bool :=
  match hay with
  | [] => needle.isEmpty
  | _ :: t => needle.isPrefixOf hay || containsSub t needle

/-- JavaScript `indexOf` for a substring; `none` when absent. -/
def indexOfSub (hay needle : Str) : Option Nat :=
  match hay with
  | [] => if needle.isEmpty then some 0 else none
  | _ :: t =>
    if needle.isPrefixOf hay then some 0
    else (indexOfSub t needle).map (· + 1)

/-- JavaScript `lastIndexOf` for a substring; `none` when absent. -/
def lastIndexOfSub (hay needle : Str) : Option Nat :=
  match hay with
  | [] => if needle.isEmpty then some 0 else none
  | _ :: t =>
    match lastIndexOfSub t needle with
    | some i => some (i + 1)
    | none => if needle.isPrefixOf hay then some 0 else none

/-- Fuel-driven scan of `replaceAllSub` (structural recursion, so that
concrete runs reduce inside the kernel). -/
def replaceAllSubAux (pat rep : Str) : Nat → Str → Str
  | 0, s => s
  | _ + 1, [] => []
  | fuel + 1, c :: t =>
    if pat.isPrefixOf (c :: t) && !pat.isEmpty then
      rep ++ replaceAllSubAux pat rep fuel ((c :: t).drop pat.length)
    else
      c :: replaceAllSubAux pat rep fuel t

/-- Replace every non-overlapping occurrence of a literal pattern
(JavaScript `replace(/pat/g, rep)` for a literal pattern), scanning left
to right. -/
def replaceAllSub (pat rep s : Str) : Str :=
  replaceAllSubAux pat rep (s.length + 1) s

/-- Scan of `collapseWs`; the flag records whether the previous character
was whitespace (already replaced by one space). -/
def collapseWsAux : Bool → Str → Str
  | _, [] => []
  | inWs, c :: t =>
    if isWsC c then
      if inWs then collapseWsAux true t else ' ' :: collapseWsAux true t
    else c :: collapseWsAux false t

/-- Replace each maximal whitespace run by a single space,
JavaScript `replace(/\s+/g, ' ')`. -/
def collapseWs (s : Str) : Str := collapseWsAux false s

/-- `Math.min` on integers, kept as an explicit conditional. -/
def jsMin (a b : Int) : Int := if a ≤ b then a else b

/-- `Math.max` on integers, kept as an explicit conditional. -/
def jsMax (a b : Int) : Int := if a ≤ b then b else a

/-- JavaScript `charAt(0).toUpperCase() + slice(1).toLowerCase()`. -/
def capitalizeWord (w : Str) : Str :=
  match w with
  | [] => []
  | c :: t => toUpperC c :: lower t

/-! ## A small backtracking regex engine

The JS engine explores greedy quantifiers longest-first and alternations
left-to-right, returning the first overall success.  The CPS matcher
below reproduces exactly that search order for the constructs the
repository's patterns use: character classes, concatenation, ordered
alternation, greedy `*` over a character class, greedy `?`, and the word
boundary `\b`. -/

inductive RE where
  | eps : RE
  | cls : (Char → Bool) → RE
  | seq : RE → RE → RE
  | alt : RE → RE → RE
  | star : (Char → Bool) → RE
  | opt : RE → RE
  | wb : RE

/-- Word-boundary test between the previous character and the rest of the
input (`none` previous character means start of string). -/
def atBoundary (p : Option Char) (s : Str) : Bool :=
  let l := match p with | some c => isWordC c | none => false
  let r := match s with | c :: _ => isWordC c | [] => false
  l != r

/-- A successful match: the consumed characters in reverse order, the
last character consumed overall, and the remaining input. -/
abbrev MRes := Str × Option Char × Str

/-- Greedy Kleene star over a character class: consume as many characters
as possible, backtracking to shorter matches through the continuation. -/
def starRun (f : Char → Bool) (k : Str → Option Char → Str → Option MRes) :
    Str → Option Char → Str → Option MRes
  | acc, p, [] => k acc p []
  | acc, p, c :: t =>
    if f c then
      match starRun f k (c :: acc) (some c) t with
      | some r => some r
      | none => k acc p (c :: t)
    else k acc p (c :: t)

/-- The CPS matcher.  `acc` holds the consumed characters in reverse,
`p` the previously consumed character (for `\b`). -/
def RE.m : RE → (Str → Option Char → Str → Option MRes) →
    Str → Option Char → Str → Option MRes
  | .eps, k, acc, p, s => k acc p s
  | .cls f, k, acc, _, s =>
    match s with
    | [] => none
    | c :: t => if f c then k (c :: acc) (some c) t else none
  | .seq a b, k, acc, p, s =>
    a.m (fun acc2 p2 s2 => b.m k acc2 p2 s2) acc p s
  | .alt a b, k, acc, p, s =>
    match a.m k acc p s with
    | some r => some r
    | none => b.m k acc p s
  | .opt a, k, acc, p, s =>
    match a.m k acc p s with
    | some r => some r
    | none => k acc p s
  | .star f, k, acc, p, s => starRun f k acc p s
  | .wb, k, acc, p, s => if atBoundary p s then k acc p s else none

/-- Attempt a match starting exactly at the current position. -/
def matchAt (r : RE) (p : Option Char) (s : Str) : Option MRes :=
  r.m (fun acc p2 rest => some (acc, p2, rest)) [] p s

/-- Leftmost match search; returns (matched, lastChar, rest). -/
def searchFrom (r : RE) : Option Char → Str → Option (Str × Option Char × Str)
  | p, s =>
    match matchAt r p s with
    | some (acc, p2, rest) => some (acc.reverse, p2, rest)
    | none =>
      match s with
      | [] => none
      | c :: t => searchFrom r (some c) t

/-- Leftmost match search that also returns the prefix before the match,
mirroring `String.prototype.match` (no `g` flag). -/
def searchSplit (r : RE) : Str → Option Char → Str → Option (Str × Str × Str)
  | pre, p, s =>
    match matchAt r p s with
    | some (acc, _, rest) => some (pre.reverse, acc.reverse, rest)
    | none =>
      match s with
      | [] => none
      | c :: t => searchSplit r (c :: pre) (some c) t

/-- JavaScript `s.match(re)` without the `g` flag: first match with its
surrounding context, or `none`. -/
def jsMatch (r : RE) (s : Str) : Option (Str × Str × Str) :=
  searchSplit r [] none s

/-- JavaScript `re.test(s)` for an unanchored pattern. -/
def reTest (r : RE) (s : Str) : Bool :=
  (searchFrom r none s).isSome

/-- JavaScript `re.test(s)` for a `^...$`-anchored pattern: the whole
string must be consumed (failed end anchors backtrack through the CPS). -/
def reTestFull (r : RE) (s : Str) : Bool :=
  (r.m (fun _ _ rest => if rest.isEmpty then some ([], none, []) else none)
    [] none s).isSome

/-- JavaScript `re.test(s)` for a `^...`-anchored pattern (prefix match). -/
def reTestStart (r : RE) (s : Str) : Bool :=
  (r.m (fun _ _ _ => some ([], none, [])) [] none s).isSome

/-- JavaScript leftmost match where the pattern is anchored at the end
(`...$`): the first position from which the pattern consumes the entire
remaining input.  Returns the matched characters. -/
def searchEndAnchored (r : RE) (s : Str) : Option Str :=
  match r.m (fun acc _ rest => if rest.isEmpty then some (acc, none, []) else none)
      [] none s with
  | some (acc, _, _) => some acc.reverse
  | none =>
    match s with
    | [] => none
    | c :: t => searchEndAnchoredAux r (some c) t
where
  /-- Auxiliary scan over later start positions. -/
  searchEndAnchoredAux (r : RE) : Option Char → Str → Option Str
    | p, s =>
      match r.m (fun acc _ rest => if rest.isEmpty then some (acc, none, []) else none)
          [] p s with
      | some (acc, _, _) => some acc.reverse
      | none =>
        match s with
        | [] => none
        | c :: t => searchEndAnchoredAux r (some c) t

/-- All matches of a `g`-flagged pattern, in order, mirroring the
`while ((match = re.exec(text)) !== null)` idiom.  A zero-length match
terminates the scan (none of the embedded patterns can match empty). -/
def execAllAux (r : RE) : Nat → Option Char → Str → List Str
  | 0, _, _ => []
  | _ + 1, _, [] =>
    match searchFrom r none [] with
    | some (m, _, _) => if m.isEmpty then [] else [m]
    | none => []
  | fuel + 1, p, s =>
    match searchFrom r p s with
    | some (m, p2, rest) => if m.isEmpty then [] else m :: execAllAux r fuel p2 rest
    | none => []

/-- All matches of a `g`-flagged pattern over a string. -/
def execAll (r : RE) (s : Str) : List Str :=
  execAllAux r (s.length + 1) none s

/-- Replace the first match of a pattern by a literal replacement,
JavaScript `s.replace(re, rep)` without the `g` flag. -/
def replaceFirstRE (r : RE) (rep : Str) (s : Str) : Str :=
  match jsMatch r s with
  | some (pre, _, post) => pre ++ rep ++ post
  | none => s

/-- Build the regex for a literal string. -/
def lit (s : Str) : RE :=
  s.foldr (fun c r => RE.seq (RE.cls (fun d => d == c)) r) RE.eps

/-- Build the regex for a literal string, case-insensitively (`/i`). -/
def litCI (s : Str) : RE :=
  s.foldr (fun c r => RE.seq (RE.cls (fun d => toLowerC d == toLowerC c)) r) RE.eps

/-- Chain a list of regexes in sequence. -/
def seqAll (l : List RE) : RE := l.foldr RE.seq RE.eps

/-- Ordered alternation over a list of regexes. -/
def altAll (l : List RE) : RE :=
  match l with
  | [] => RE.eps
  | [r] => r
  | r :: t => RE.alt r (altAll t)

/-- Exactly `n` repetitions of a character class. -/
def repCls (f : Char → Bool) : Nat → RE
  | 0 => RE.eps
  | n + 1 => RE.seq (RE.cls f) (repCls f n)

/-- Greedy `{1,n}` repetition of a character class (longest first). -/
def rep1N (f : Char → Bool) : Nat → RE
  | 0 => RE.eps
  | 1 => RE.cls f
  | n + 2 => RE.seq (RE.cls f) (RE.opt (rep1N f (n + 1)))

/-! ## JavaScript `Array.prototype.sort`

`Array.prototype.sort(cmp)` is a stable sort (ES2019): elements are
ordered so that `cmp(a, b) <= 0` for `a` before `b`, ties keeping their
original relative order.  Stable insertion sort, inserting each element
after all earlier elements it does not strictly precede, realizes exactly
this. -/

/-- Insert `x` after every element `y` of the (already processed) list
with `cmp y x ≤ 0`. -/
def insertCmp (cmp : α → α → Int) (x : α) : List α → List α
  | [] => [x]
  | y :: t => if cmp y x ≤ 0 then y :: insertCmp cmp x t else x :: y :: t

/-- Stable sort with a JS comparator. -/
def jsSortBy (cmp : α → α → Int) (l : List α) : List α :=
  l.foldl (fun acc x => insertCmp cmp x acc) []

/-! ## EmailParser (src/services/parsers/emailParser.ts) -/

namespace EmailParser

/-- Result record of the email parser (`EmailParseResult`). -/
structure EmailParseResult where
  email : Str
  confidence : Int
  isPrimary : Bool
  domain : Str
  isValid : Bool
  deriving Repr, DecidableEq

/-- Character class `[a-zA-Z0-9._-]` (email username interior). -/
def userMidC (c : Char) : Bool := isAlnumC c || c == '.' || c == '_' || c == '-'

/-- Character class `[a-zA-Z0-9.-]` (email domain interior). -/
def domMidC (c : Char) : Bool := isAlnumC c || c == '.' || c == '-'

/-- First EMAIL_PATTERNS entry (confidence 95, name "standard"):
`[a-zA-Z0-9](?:[a-zA-Z0-9._-]*[a-zA-Z0-9])?@[a-zA-Z0-9](?:[a-zA-Z0-9.-]*[a-zA-Z0-9])?\.[a-zA-Z]{2,}(?:\.[a-zA-Z]{2,3})?` -/
def standardRE : RE :=
  seqAll
    [ RE.cls isAlnumC,
      RE.opt (RE.seq (RE.star userMidC) (RE.cls isAlnumC)),
      RE.cls (fun c => c == '@'),
      RE.cls isAlnumC,
      RE.opt (RE.seq (RE.star domMidC) (RE.cls isAlnumC)),
      RE.cls (fun c => c == '.'),
      RE.cls isAlphaC, RE.cls isAlphaC, RE.star isAlphaC,
      RE.opt (seqAll
        [ RE.cls (fun c => c == '.'),
          RE.cls isAlphaC, RE.cls isAlphaC, RE.opt (RE.cls isAlphaC) ]) ]

/-- Second EMAIL_PATTERNS entry (confidence 80, name "ocr_corrected"):
`[a-zA-Z0-9](?:[a-zA-Z0-9._-]*[a-zA-Z0-9])?@[a-zA-Z0-9](?:[a-zA-Z0-9.-]*[a-zA-Z0-9])?\.c[o0]m?\b` -/
def ocrCorrectedRE : RE :=
  seqAll
    [ RE.cls isAlnumC,
      RE.opt (RE.seq (RE.star userMidC) (RE.cls isAlnumC)),
      RE.cls (fun c => c == '@'),
      RE.cls isAlnumC,
      RE.opt (RE.seq (RE.star domMidC) (RE.cls isAlnumC)),
      RE.cls (fun c => c == '.'),
      RE.cls (fun c => c == 'c'),
      RE.cls (fun c => c == 'o' || c == '0'),
      RE.opt (RE.cls (fun c => c == 'm')),
      RE.wb ]

/-- EMAIL_PATTERNS: pattern with its base confidence. -/
def EMAIL_PATTERNS : List (RE × Int) := [(standardRE, 95), (ocrCorrectedRE, 80)]

/-- VALID_DOMAINS allow-list. -/
def VALID_DOMAINS : List Str :=
  [ ("com").data, ("org").data, ("net").data, ("edu").data, ("gov").data,
    ("mil").data, ("int").data,
    ("co.uk").data, ("co.au").data, ("co.nz").data, ("com.au").data,
    ("co.jp").data, ("co.kr").data,
    ("ca").data, ("de").data, ("fr").data, ("it").data, ("es").data,
    ("nl").data, ("be").data, ("ch").data, ("at").data,
    ("se").data, ("no").data, ("dk").data, ("fi").data, ("pl").data,
    ("cz").data, ("hu").data, ("ru").data,
    ("io").data, ("ai").data, ("tech").data, ("dev").data, ("app").data,
    ("cloud").data, ("digital").data,
    ("online").data, ("site").data, ("website").data, ("pro").data,
    ("biz").data, ("info").data ]

/-- BUSINESS_INDICATORS (generic-inbox username markers). -/
def BUSINESS_INDICATORS : List Str :=
  [ ("info").data, ("contact").data, ("sales").data, ("support").data,
    ("admin").data, ("office").data, ("hello").data, ("team").data,
    ("mail").data, ("inquiries").data, ("business").data ]

/-- PERSONAL_INDICATORS (free-mail domains). -/
def PERSONAL_INDICATORS : List Str :=
  [ ("gmail.com").data, ("yahoo.com").data, ("hotmail.com").data,
    ("outlook.com").data, ("icloud.com").data, ("me.com").data,
    ("aol.com").data, ("live.com").data ]

/-- One OCR-correction step applied to the part after each `@`
(`corrected.replace(/@([^@\s]+)/g, ...)` with `domain.replace(from, to)`).
The domain segment is the maximal run of non-`@`, non-whitespace
characters following an `@`. -/
def domainCorrectAux (f : Str → Str) : Nat → Str → Str
  | 0, s => s
  | _ + 1, [] => []
  | fuel + 1, c :: t =>
    if c == '@' then
      let seg := t.takeWhile (fun d => !(d == '@') && !isWsC d)
      let rest := t.drop seg.length
      if seg.isEmpty then c :: domainCorrectAux f fuel t
      else c :: (f seg ++ domainCorrectAux f fuel rest)
    else c :: domainCorrectAux f fuel t

/-- Wrapper running the domain-correction scan over the whole string. -/
def domainCorrect (f : Str → Str) (s : Str) : Str :=
  domainCorrectAux f (s.length + 1) s

/-- One OCR-correction step applied to the part before each `@`
(`corrected.replace(/([a-zA-Z0-9._-]+)@/g, ...)`).  The username segment
is the maximal run of `[a-zA-Z0-9._-]` characters ending right before an
`@`; scanning mirrors the JS leftmost-match loop. -/
def usernameCorrectAux (f : Str → Str) : Nat → Str → Str
  | 0, s => s
  | _ + 1, [] => []
  | fuel + 1, c :: t =>
    if userMidC c then
      match t.dropWhile userMidC with
      | '@' :: r2 => f (c :: t.takeWhile userMidC) ++ '@' :: usernameCorrectAux f fuel r2
      | other => (c :: t.takeWhile userMidC) ++ usernameCorrectAux f fuel other
    else c :: usernameCorrectAux f fuel t

/-- Wrapper running the username-correction scan over the whole string. -/
def usernameCorrect (f : Str → Str) (s : Str) : Str :=
  usernameCorrectAux f (s.length + 1) s

/-- A character substitution on a segment (`segment.replace(/x/g, 'y')`
for single characters). -/
def mapChar (a b : Char) (s : Str) : Str :=
  s.map (fun c => if c == a then b else c)

/-- OCR_CORRECTIONS applied in order (`applyOCRCorrections`).  Each entry
rewrites domains (after `@`), usernames (before `@`), or both. -/
def applyOCRCorrections (text : Str) : Str :=
  let t1 := domainCorrect (mapChar '0' 'o') text
  let t2 := usernameCorrect (mapChar 'O' '0') t1
  let t3 := usernameCorrect (mapChar 'l' '1') t2
  let t4 := usernameCorrect (mapChar 'I' '1') t3
  let t5 := usernameCorrect (mapChar 'S' '5') t4
  let t6 := usernameCorrect (mapChar 'G' '6') t5
  let t7 := domainCorrect (replaceAllSub (("c0m").data) (("com").data)) t6
  let t8 := usernameCorrect (mapChar '|' 'l') (domainCorrect (mapChar '|' 'l') t7)
  usernameCorrect (replaceAllSub (("rn").data) (("m").data))
    (domainCorrect (replaceAllSub (("rn").data) (("m").data)) t8)

/-- Clamp to [0, 100] (`Math.max(0, Math.min(100, Math.round(c)))`;
the confidence arithmetic stays integral so rounding is the identity). -/
def clamp100 (c : Int) : Int := jsMax 0 (jsMin 100 c)

/-- `email.split('@')[0]` (the username). -/
def emailUsername (email : Str) : Str := (jsSplit '@' email).getD 0 []

/-- `email.split('@')[1]` (the domain; empty when there is no `@`). -/
def emailDomain (email : Str) : Str := (jsSplit '@' email).getD 1 []

/-- Basic format validation of `validateAndScore`. -/
def emailFormatValid (email : Str) : Bool :=
  let username := emailUsername email
  let domain := emailDomain email
  !username.isEmpty && !domain.isEmpty &&
  decide (1 ≤ username.length) && decide (3 ≤ domain.length) &&
  containsSub domain (("." ).data) &&
  username.all userMidC && domain.all domMidC

/-- Domain allow-list validation of `validateAndScore`: the top-level
domain or the last-two-label suffix is in `VALID_DOMAINS`. -/
def emailHasValidTLD (email : Str) : Bool :=
  let domainParts := jsSplit '.' (emailDomain email)
  let tld := (domainParts.drop (domainParts.length - 1)).getD 0 []
  let secondLevel :=
    match domainParts.drop (domainParts.length - 2) with
    | [a, b] => a ++ '.' :: b
    | [a] => a
    | _ => []
  VALID_DOMAINS.contains tld || VALID_DOMAINS.contains secondLevel

/-- Personal-domain classification of `validateAndScore`. -/
def emailIsPersonal (email : Str) : Bool :=
  PERSONAL_INDICATORS.any (fun ind => containsSub (lower email) ind)

/-- Business/primary classification of `validateAndScore`. -/
def emailIsPrimary (email : Str) : Bool :=
  !emailIsPersonal email ||
  BUSINESS_INDICATORS.any (fun ind => containsSub (lower (emailUsername email)) ind)

/-- EmailParser.validateAndScore. -/
def validateAndScore (email : Str) (baseConfidence : Int) (hadOCRCorrections : Bool) :
    EmailParseResult :=
  let confidence := baseConfidence
  let confidence := if emailFormatValid email then confidence else 0
  let confidence :=
    if !emailHasValidTLD email && 0 < confidence then confidence - 15 else confidence
  let confidence := if hadOCRCorrections then confidence - 10 else confidence
  let isPrimary := emailIsPrimary email
  let confidence :=
    if isPrimary && !emailIsPersonal email then confidence + 10 else confidence
  { email := email
    confidence := clamp100 confidence
    isPrimary := isPrimary
    domain := emailDomain email
    isValid := decide (50 < confidence) }

/-- Inner `while ((match = pattern.exec(correctedText)) !== null)` loop of
`extractEmails` for one pattern: deduplicate and keep valid results. -/
def collectEmails (conf : Int) (had : Bool) :
    List Str → List Str × List EmailParseResult → List Str × List EmailParseResult
  | [], acc => acc
  | m :: ms, (processed, results) =>
    let email := trim (lower m)
    if processed.contains email then collectEmails conf had ms (processed, results)
    else
      let processed := email :: processed
      let result := validateAndScore email conf had
      if result.isValid then collectEmails conf had ms (processed, results ++ [result])
      else collectEmails conf had ms (processed, results)

/-- Comparator of the final `results.sort` in `extractEmails`. -/
def emailCmp (a b : EmailParseResult) : Int :=
  if a.isPrimary != b.isPrimary then (if a.isPrimary then -1 else 1)
  else b.confidence - a.confidence

/-- EmailParser.extractEmails. -/
def extractEmails (text : Str) : List EmailParseResult :=
  let correctedText := applyOCRCorrections text
  let had := text ≠ correctedText
  let step := fun (acc : List Str × List EmailParseResult) (p : RE × Int) =>
    collectEmails p.2 had (execAll p.1 correctedText) acc
  let results := (EMAIL_PATTERNS.foldl step ([], [])).2
  jsSortBy emailCmp results

/-- EmailParser.getPrimaryEmail. -/
def getPrimaryEmail (results : List EmailParseResult) : Option EmailParseResult :=
  match results.find? (fun r => r.isPrimary) with
  | some r => some r
  | none => results.head?

/-- EmailParser.deriveWebsite: `www.` + `email.split('@')[1]`.  When the
argument has no `@` the JS template literal stringifies `undefined`;
every e-mail produced by `extractEmails` contains exactly one `@`. -/
def deriveWebsite (email : Str) : Str :=
  ("www.").data ++ (jsSplit '@' email).getD 1 (("undefined").data)

end EmailParser

/-! ## PhoneParser (src/services/parsers/phoneParser.ts) -/

namespace PhoneParser

/-- Phone type classification. -/
inductive PhoneType where
  | mobile : PhoneType
  | office : PhoneType
  | unknown : PhoneType
  deriving Repr, DecidableEq

/-- Result record of the phone parser (`PhoneParseResult`). -/
structure PhoneParseResult where
  phone : Str
  formatted : Str
  confidence : Int
  type : PhoneType
  countryCode : Option Str
  extension : Option Str
  isValid : Bool
  deriving Repr, DecidableEq

/-- Separator class `[-.\s]`. -/
def sepC (c : Char) : Bool := c == '-' || c == '.' || isWsC c

/-- Separator class `[-.]`. -/
def dashDotC (c : Char) : Bool := c == '-' || c == '.'

/-- `(?:[-.\s]?(?:ext|x|#)[-.\s]?\d{1,4})?` — extension tail of the
international pattern (note: no `extension` alternative there). -/
def extTailShort : RE :=
  RE.opt (seqAll
    [ RE.opt (RE.cls sepC),
      altAll [lit (("ext").data), lit (("x").data), lit (("#").data)],
      RE.opt (RE.cls sepC),
      rep1N isDigitC 4 ])

/-- `(?:[-.\s]?(?:ext|extension|x|#)[-.\s]?(\d{1,4}))?` — extension tail
of the US patterns. -/
def extTailLong : RE :=
  RE.opt (seqAll
    [ RE.opt (RE.cls sepC),
      altAll [lit (("ext").data), lit (("extension").data),
              lit (("x").data), lit (("#").data)],
      RE.opt (RE.cls sepC),
      rep1N isDigitC 4 ])

/-- PHONE_PATTERNS entry "international" (95):
`\+\d{1,3}[-.\s]?\(?\d{3}\)?[-.\s]?\d{3}[-.\s]?\d{4}(?:...)?` -/
def internationalRE : RE :=
  seqAll
    [ RE.cls (fun c => c == '+'), rep1N isDigitC 3,
      RE.opt (RE.cls sepC), RE.opt (RE.cls (fun c => c == '(')),
      repCls isDigitC 3, RE.opt (RE.cls (fun c => c == ')')),
      RE.opt (RE.cls sepC), repCls isDigitC 3,
      RE.opt (RE.cls sepC), repCls isDigitC 4,
      extTailShort ]

/-- PHONE_PATTERNS entry "us_parentheses" (90):
`\(?(\d{3})\)?[-.\s]?(\d{3})[-.\s]?(\d{4})(?:...)?` -/
def usParenthesesRE : RE :=
  seqAll
    [ RE.opt (RE.cls (fun c => c == '(')), repCls isDigitC 3,
      RE.opt (RE.cls (fun c => c == ')')),
      RE.opt (RE.cls sepC), repCls isDigitC 3,
      RE.opt (RE.cls sepC), repCls isDigitC 4,
      extTailLong ]

/-- PHONE_PATTERNS entry "us_separated" (85):
`(\d{3})[-.](\d{3})[-.](\d{4})(?:...)?` -/
def usSeparatedRE : RE :=
  seqAll
    [ repCls isDigitC 3, RE.cls dashDotC,
      repCls isDigitC 3, RE.cls dashDotC, repCls isDigitC 4,
      extTailLong ]

/-- PHONE_PATTERNS entry "simple_10digit" (75):
`\b(\d{10})\b(?:...)?` -/
def simple10RE : RE :=
  seqAll [RE.wb, repCls isDigitC 10, RE.wb, extTailLong]

/-- PHONE_PATTERNS entry "international_spaces" (90):
`\+\d{1,3}\s\d{2}\s\d{4}\s\d{4}` -/
def internationalSpacesRE : RE :=
  seqAll
    [ RE.cls (fun c => c == '+'), rep1N isDigitC 3,
      RE.cls isWsC, repCls isDigitC 2,
      RE.cls isWsC, repCls isDigitC 4,
      RE.cls isWsC, repCls isDigitC 4 ]

/-- PHONE_PATTERNS with base confidences, in source order. -/
def PHONE_PATTERNS : List (RE × Int) :=
  [ (internationalRE, 95), (usParenthesesRE, 90), (usSeparatedRE, 85),
    (simple10RE, 75), (internationalSpacesRE, 90) ]

/-- Character class of the correction-chunk pattern
`[+\-.\s()0-9A-Za-z|]`. -/
def chunkC (c : Char) : Bool :=
  c == '+' || c == '-' || c == '.' || isWsC c || c == '(' || c == ')' ||
  isAlnumC c || c == '|'

/-- One pass of `corrected.replace(/[+\-.\s()0-9A-Za-z|]{7,20}/g, m => m.replace(from, to))`:
at each position the JS engine greedily matches up to 20 class
characters and applies the substitution when at least 7 matched,
otherwise moves one character forward. -/
def chunkCorrectAux (sub : Char → Char) : Nat → Str → Str
  | 0, s => s
  | _ + 1, [] => []
  | fuel + 1, c :: t =>
    let m20 := ((c :: t).takeWhile chunkC).take 20
    if 7 ≤ m20.length then
      m20.map sub ++ chunkCorrectAux sub fuel ((c :: t).drop m20.length)
    else c :: chunkCorrectAux sub fuel t

/-- Wrapper running the chunked digit-correction scan. -/
def chunkCorrect (sub : Char → Char) (s : Str) : Str :=
  chunkCorrectAux sub (s.length + 1) s

/-- OCR_DIGIT_CORRECTIONS applied in order (`applyOCRCorrections`). -/
def applyOCRCorrections (text : Str) : Str :=
  let subs : List (Char × Char) :=
    [ ('O', '0'), ('o', '0'), ('I', '1'), ('l', '1'), ('S', '5'),
      ('s', '5'), ('G', '6'), ('B', '8'), ('|', '1') ]
  subs.foldl
    (fun acc p => chunkCorrect (fun c => if c == p.1 then p.2 else c) acc) text

/-- The extension regex `(?:ext|extension|x|#)[-.\s]?(\d{1,4})` with `/i`. -/
def extensionRE : RE :=
  seqAll
    [ altAll [litCI (("ext").data), litCI (("extension").data),
              litCI (("x").data), litCI (("#").data)],
      RE.opt (RE.cls sepC),
      rep1N isDigitC 4 ]

/-- COUNTRY_CODES identification map. -/
def COUNTRY_CODES : List (Str × Str) :=
  [ (("+1").data, ("US/CA").data), (("+44").data, ("UK").data),
    (("+33").data, ("FR").data), (("+49").data, ("DE").data),
    (("+39").data, ("IT").data), (("+34").data, ("ES").data),
    (("+31").data, ("NL").data), (("+32").data, ("BE").data),
    (("+41").data, ("CH").data), (("+43").data, ("AT").data),
    (("+46").data, ("SE").data), (("+47").data, ("NO").data),
    (("+45").data, ("DK").data), (("+358").data, ("FI").data),
    (("+86").data, ("CN").data), (("+81").data, ("JP").data),
    (("+82").data, ("KR").data), (("+61").data, ("AU").data),
    (("+64").data, ("NZ").data) ]

/-- MOBILE_INDICATORS. -/
def MOBILE_INDICATORS : List Str :=
  [ ("mobile").data, ("cell").data, ("cellular").data,
    ("m:").data, ("mob:").data ]

/-- OFFICE_INDICATORS. -/
def OFFICE_INDICATORS : List Str :=
  [ ("office").data, ("work").data, ("business").data, ("direct").data,
    ("desk").data, ("o:").data, ("off:").data ]

/-- PhoneParser.detectPhoneType (keyword scan over the whole text). -/
def detectPhoneType (context : Str) : PhoneType :=
  let lowerContext := lower context
  if MOBILE_INDICATORS.any (fun i => containsSub lowerContext i) then .mobile
  else if OFFICE_INDICATORS.any (fun i => containsSub lowerContext i) then .office
  else .office

/-- PhoneParser.formatPhone. -/
def formatPhone (phone : Str) (extension : Option Str) : Str :=
  let digitsOnly := phone.filter isDigitC
  let formatted :=
    if phone.headD ' ' == '+' then
      let p2 := phone.filter (fun c => isDigitC c || c == '+')
      match jsMatch (seqAll
        [ RE.cls (fun c => c == '+'), rep1N isDigitC 3,
          repCls isDigitC 10 ]) p2 with
      | some (pre, m, post) =>
        let g1 := m.take (m.length - 10)
        let rest10 := m.drop (m.length - 10)
        pre ++ g1 ++ ' ' :: rest10.take 3 ++ '-' :: (rest10.drop 3).take 3 ++
          '-' :: rest10.drop 6 ++ post
      | none => p2
    else if digitsOnly.length == 10 then
      '(' :: digitsOnly.take 3 ++ (")").data ++ ' ' :: (digitsOnly.drop 3).take 3 ++
        '-' :: digitsOnly.drop 6
    else if digitsOnly.length == 11 && digitsOnly.headD ' ' == '1' then
      ("+1 (").data ++ (digitsOnly.drop 1).take 3 ++ (") ").data ++
        (digitsOnly.drop 4).take 3 ++ '-' :: digitsOnly.drop 7
    else phone
  match extension with
  | some e => formatted ++ (" ext. ").data ++ e
  | none => formatted

/-- PhoneParser.normalizePhone. -/
def normalizePhone (phone : Str) : Str := phone.filter isDigitC

/-- PhoneParser.parseAndValidate. -/
def parseAndValidate (rawPhone : Str) (baseConfidence : Int) (hadCorrections : Bool)
    (originalText : Str) : PhoneParseResult :=
  let confidence := baseConfidence
  let extensionMatch := jsMatch extensionRE rawPhone
  let extension := extensionMatch.map (fun t => (t.2.1.reverse.takeWhile isDigitC).reverse)
  let cleanPhone := trim (replaceFirstRE extensionRE [] rawPhone)
  let digitsOnly := cleanPhone.filter isDigitC
  let isValid := decide (7 ≤ digitsOnly.length)
  let confidence :=
    if digitsOnly.length < 7 then 0
    else if digitsOnly.length == 7 then confidence - 20
    else if digitsOnly.length == 10 then confidence + 5
    else if digitsOnly.length == 11 && digitsOnly.headD ' ' == '1' then confidence + 10
    else if 11 < digitsOnly.length then confidence + 5
    else confidence
  let countryMatch :=
    match cleanPhone with
    | '+' :: t =>
      let ds := (t.takeWhile isDigitC).take 3
      if ds.isEmpty then none else some ('+' :: ds)
    | _ => none
  let countryCode := countryMatch.map
    (fun code => ((COUNTRY_CODES.find? (fun p => p.1 == code)).map Prod.snd).getD code)
  let confidence := if countryMatch.isSome then confidence + 5 else confidence
  let type := detectPhoneType originalText
  let confidence := if hadCorrections then confidence - 5 else confidence
  let formatted := formatPhone cleanPhone extension
  { phone := rawPhone
    formatted := formatted
    confidence := EmailParser.clamp100 confidence
    type := type
    countryCode := countryCode
    extension := extension
    isValid := isValid }

/-- Inner exec loop of `extractPhones` for one pattern: deduplicate on the
normalized digits and keep valid results. -/
def collectPhones (conf : Int) (had : Bool) (originalText : Str) :
    List Str → List Str × List PhoneParseResult → List Str × List PhoneParseResult
  | [], acc => acc
  | m :: ms, (processed, results) =>
    let rawPhone := trim m
    let normalized := normalizePhone rawPhone
    if processed.contains normalized then
      collectPhones conf had originalText ms (processed, results)
    else
      let processed := normalized :: processed
      let result := parseAndValidate rawPhone conf had originalText
      if result.isValid then
        collectPhones conf had originalText ms (processed, results ++ [result])
      else collectPhones conf had originalText ms (processed, results)

/-- Numeric rank used by the final sort (`typeOrder`). -/
def typeOrder : PhoneType → Int
  | .office => 3
  | .mobile => 2
  | .unknown => 1

/-- Comparator of the final `results.sort` in `extractPhones`. -/
def phoneCmp (a b : PhoneParseResult) : Int :=
  if a.type ≠ b.type then typeOrder b.type - typeOrder a.type
  else b.confidence - a.confidence

/-- PhoneParser.extractPhones. -/
def extractPhones (text : Str) : List PhoneParseResult :=
  let correctedText := applyOCRCorrections text
  let hadCorrections := text ≠ correctedText
  let step := fun (acc : List Str × List PhoneParseResult) (p : RE × Int) =>
    collectPhones p.2 hadCorrections text (execAll p.1 correctedText) acc
  let results := (PHONE_PATTERNS.foldl step ([], [])).2
  jsSortBy phoneCmp results

/-- PhoneParser.getPrimaryPhone. -/
def getPrimaryPhone (results : List PhoneParseResult) : Option PhoneParseResult :=
  match results.filter (fun r => r.type == PhoneType.office) with
  | r :: _ => some r
  | [] => results.head?

end PhoneParser

/-! ## NameParser (src/services/parsers/nameParser.ts) -/

namespace NameParser

/-- Result record of the name parser (`NameParseResult`). -/
structure NameParseResult where
  name : Str
  confidence : Int
  title : Option Str
  isValid : Bool
  separatedFromTitle : Bool
  deriving Repr, DecidableEq

/-- TITLE_PREFIXES (honorifics stripped from the front of a name). -/
def TITLE_PREFIXES : List Str :=
  [ ("mr").data, ("mrs").data, ("ms").data, ("miss").data, ("dr").data,
    ("prof").data, ("professor").data, ("rev").data, ("reverend").data ]

/-- TITLE_KEYWORDS (role vocabulary). -/
def TITLE_KEYWORDS : List Str :=
  [ ("ceo").data, ("cto").data, ("cfo").data, ("coo").data,
    ("president").data, ("vice president").data, ("vp").data, ("svp").data,
    ("director").data, ("managing director").data, ("executive director").data,
    ("regional director").data,
    ("manager").data, ("senior manager").data, ("general manager").data,
    ("project manager").data, ("product manager").data,
    ("senior").data, ("lead").data, ("team lead").data, ("tech lead").data,
    ("head").data, ("chief").data, ("principal").data,
    ("associate").data, ("senior associate").data, ("coordinator").data,
    ("specialist").data, ("senior specialist").data,
    ("analyst").data, ("senior analyst").data, ("consultant").data,
    ("senior consultant").data, ("partner").data,
    ("engineer").data, ("software engineer").data, ("senior engineer").data,
    ("staff engineer").data,
    ("developer").data, ("senior developer").data, ("software developer").data,
    ("web developer").data,
    ("designer").data, ("senior designer").data, ("ux designer").data,
    ("ui designer").data,
    ("architect").data, ("software architect").data, ("solution architect").data,
    ("enterprise architect").data,
    ("supervisor").data, ("executive").data, ("administrator").data,
    ("admin").data, ("assistant").data,
    ("sales").data, ("sales manager").data, ("sales director").data,
    ("sales executive").data, ("sales rep").data,
    ("marketing").data, ("marketing manager").data, ("marketing director").data,
    ("marketing specialist").data,
    ("hr").data, ("human resources").data, ("hr manager").data,
    ("hr director").data, ("hr specialist").data,
    ("operations").data, ("operations manager").data, ("operations director").data,
    ("ops manager").data,
    ("finance").data, ("finance manager").data, ("finance director").data,
    ("financial analyst").data,
    ("owner").data, ("co-owner").data, ("founder").data, ("co-founder").data,
    ("partner").data ]

/-- NAME_PATTERNS, all `^...$`-anchored:
First Last; First Middle Last; First Middle-Initial Last; hyphenated
last names; multiple first names. -/
def NAME_PATTERNS : List RE :=
  let capWord : RE := RE.seq (RE.cls isUpperC) (RE.seq (RE.cls isLowerC) (RE.star isLowerC))
  let sp : RE := RE.cls (fun c => c == ' ')
  [ seqAll [capWord, sp, capWord],
    seqAll [capWord, sp,
      RE.opt (seqAll [RE.cls isUpperC, RE.opt (RE.cls (fun c => c == '.')), sp]),
      capWord],
    seqAll [capWord, sp,
      RE.opt (seqAll [RE.cls isUpperC, RE.cls (fun c => c == '.'), sp]),
      capWord],
    seqAll [capWord, sp, capWord, RE.cls (fun c => c == '-'), capWord],
    seqAll [capWord, sp, capWord, sp, capWord] ]

/-- NameParser.isNotName: lines that are definitely not names. -/
def isNotName (line : Str) (excludeCompany : Option Str) : Bool :=
  let lowerLine := lower line
  let isCompany :=
    match excludeCompany with
    | some c => !c.isEmpty && lowerLine == lower c
    | none => false
  let hasContact := containsSub line (("@").data) || reTest (repCls isDigitC 3) line
  let badLength := line.length < 3 || 60 < line.length
  let isKeyword := TITLE_KEYWORDS.any (fun k => lowerLine == k)
  let letterCount := (line.filter isAlphaC).length
  let mostlyNonLetter := decide ((letterCount : Int) * 10 < (line.length : Int) * 6)
  isCompany || hasContact || badLength || isKeyword || mostlyNonLetter

/-- NameParser.cleanNameLine: pipe to I, `rn` to `m`, whitespace
normalization, strip characters outside `[\w\s.-]`, trim. -/
def cleanNameLine (line : Str) : Str :=
  let s1 := mapCharPipe line
  let s2 := replaceAllSub (("rn").data) (("m").data) s1
  let s3 := collapseWs s2
  let s4 := s3.filter (fun c => isWordC c || isWsC c || c == '.' || c == '-')
  trim s4
where
  /-- The `replace(/\|/g, 'I')` step. -/
  mapCharPipe (s : Str) : Str := s.map (fun c => if c == '|' then 'I' else c)

/-- Strip one trailing `.` or `,` (`word.toLowerCase().replace(/[.,]$/, '')`). -/
def stripTrailingPunct (w : Str) : Str :=
  match w.reverse with
  | c :: t => if c == '.' || c == ',' then t.reverse else w
  | [] => w

/-- NameParser.extractTitlePrefix: find a title word among the first two
words and split it (plus what precedes it) off as a title. -/
def extractTitlePrefixPart (line : Str) : Str × Option Str :=
  let words := jsWords line
  let tryAt := fun (i : Nat) =>
    if i + 1 < words.length then
      let word := stripTrailingPunct (lower (words.getD i []))
      if TITLE_PREFIXES.contains word || TITLE_KEYWORDS.contains word then
        let title := joinSpace (words.take (i + 1))
        let name := joinSpace (words.drop (i + 1))
        if 3 ≤ name.length then some (name, title) else none
      else none
    else none
  match tryAt 0 with
  | some (n, t) => (n, some t)
  | none =>
    match tryAt 1 with
    | some (n, t) => (n, some t)
    | none => (line, none)
where
  /-- `words.slice(..).join(' ')`. -/
  joinSpace (ws : List Str) : Str :=
    match ws with
    | [] => []
    | [w] => w
    | w :: rest => w ++ ' ' :: joinSpace rest

/-- NameParser.looksLikeName. -/
def looksLikeName (text : Str) : Bool :=
  let words := jsWords (trim text)
  if words.length < 1 || 4 < words.length then false
  else if !words.all (fun w => reTestStart (RE.seq (RE.cls isUpperC) (RE.star isLowerC)) w) then
    false
  else
    let lowerText := lower text
    !TITLE_KEYWORDS.any (fun k => containsSub lowerText k)

/-- NameParser.extractTitleSuffix: scan the last up-to-three suffix
positions for title vocabulary and split the tail off as a title. -/
def extractTitleSuffixPart (line : Str) : Str × Option Str :=
  let words := jsWords line
  if words.length < 2 then (line, none)
  else
    let idxs := (List.range words.length).reverse.filter
      (fun i => words.length - 3 ≤ i)
    let found := idxs.findSome? (fun i =>
      let titleWords := lower (extractTitlePrefixPart.joinSpace (words.drop i))
      if TITLE_KEYWORDS.any (fun k => containsSub titleWords k) then
        let name := extractTitlePrefixPart.joinSpace (words.take i)
        let title := extractTitlePrefixPart.joinSpace (words.drop i)
        if 3 ≤ name.length && looksLikeName name then some (name, title) else none
      else none)
    match found with
    | some (n, t) => (n, some t)
    | none => (line, none)

/-- NameParser.validateName: pattern boost, structural checks. -/
def validateName (name : Str) : Bool × Int :=
  let patternBoost := if NAME_PATTERNS.any (fun p => reTestFull p name) then 20 else 0
  let words := jsWords name
  if words.length < 2 then (false, 0)
  else
    let boost : Int := patternBoost
    let boost := if 4 < words.length then boost - 10 else boost
    let boost :=
      if words.any (fun w => w.length < 2 || 15 < w.length) then boost - 5 else boost
    if name.any isDigitC then (false, 0)
    else (true, boost)

/-- NameParser.formatName: per-word capitalization with hyphen and
initial handling. -/
def formatName (name : Str) : Str :=
  joinWords ((jsSplit ' ' name).map formatWord)
where
  /-- Format one word. -/
  formatWord (w : Str) : Str :=
    if containsSub w (("-").data) then
      joinHyphen ((jsSplit '-' w).map capitalizeWord)
    else if w.length == 1 || (w.length == 2 && (w.reverse.headD ' ' == '.')) then
      upper w
    else capitalizeWord w
  /-- `join('-')`. -/
  joinHyphen (ws : List Str) : Str :=
    match ws with
    | [] => []
    | [w] => w
    | w :: rest => w ++ '-' :: joinHyphen rest
  /-- `join(' ')`. -/
  joinWords (ws : List Str) : Str :=
    match ws with
    | [] => []
    | [w] => w
    | w :: rest => w ++ ' ' :: joinWords rest

/-- NameParser.parseNameFromLine. -/
def parseNameFromLine (line : Str) (excludeCompany : Option Str) :
    Option NameParseResult :=
  if isNotName line excludeCompany then none
  else
    let confidence : Int := 60
    let cleanLine := cleanNameLine line
    let pre := extractTitlePrefixPart cleanLine
    let cleanLine := pre.1
    let extractedTitle := pre.2
    let confidence := if pre.2.isSome then confidence + 10 else confidence
    let separated := pre.2.isSome
    let suf := extractTitleSuffixPart cleanLine
    let cleanLine := suf.1
    let extractedTitle :=
      match suf.2 with
      | some t =>
        match extractedTitle with
        | some e => some (e ++ (", ").data ++ t)
        | none => some t
      | none => extractedTitle
    let confidence := if suf.2.isSome then confidence + 15 else confidence
    let separated := separated || suf.2.isSome
    let v := validateName cleanLine
    if !v.1 then none
    else
      let confidence := confidence + v.2
      some
        { name := formatName cleanLine
          confidence := jsMin 95 confidence
          title := extractedTitle
          isValid := true
          separatedFromTitle := separated }

/-- NameParser.extractName: first line that yields a valid parse.  The
`excludeCompany` argument is optional in the source and never passed by
the OCR service; callers here pass `none` explicitly. -/
def extractName (text : Str) (excludeCompany : Option Str) :
    Option NameParseResult :=
  (jsLines text).findSome? (fun line => parseNameFromLine line excludeCompany)

end NameParser

/-! ## CompanyParser (src/services/parsers/companyParser.ts)

The module's source is staged inside
src/docs/prd/6-detailed-epic-breakdown-web-prototype-focus.md, after the
document separator. -/

namespace CompanyParser

/-- Result record of the company parser (`CompanyParseResult`);
`corrections` is never pushed to, so it is always `undefined` (`none`). -/
structure CompanyParseResult where
  company : Str
  confidence : Int
  hasBusinessSuffix : Bool
  isValid : Bool
  corrections : Option (List Str)
  deriving Repr, DecidableEq

/-- BUSINESS_SUFFIXES. -/
def BUSINESS_SUFFIXES : List Str :=
  [ ("llc").data, ("inc").data, ("corp").data, ("corporation").data,
    ("ltd").data, ("limited").data, ("co").data, ("company").data,
    ("enterprises").data, ("enterprise").data, ("group").data,
    ("solutions").data, ("services").data, ("associates").data,
    ("partners").data, ("partnership").data, ("holdings").data,
    ("ventures").data, ("technologies").data, ("tech").data,
    ("systems").data, ("consulting").data, ("consultants").data,
    ("advisors").data, ("agency").data, ("firm").data,
    ("organization").data, ("org").data, ("foundation").data,
    ("institute").data, ("center").data, ("centre").data ]

/-- BUSINESS_KEYWORDS. -/
def BUSINESS_KEYWORDS : List Str :=
  [ ("software").data, ("technology").data, ("digital").data, ("data").data,
    ("analytics").data, ("consulting").data, ("marketing").data,
    ("advertising").data, ("design").data, ("creative").data,
    ("media").data, ("communications").data, ("financial").data,
    ("insurance").data, ("real estate").data, ("construction").data,
    ("manufacturing").data, ("healthcare").data, ("medical").data,
    ("pharmaceutical").data, ("biotech").data, ("research").data,
    ("education").data, ("training").data, ("hospitality").data,
    ("retail").data, ("logistics").data, ("transport").data ]

/-- DEPARTMENT_WORDS. -/
def DEPARTMENT_WORDS : List Str :=
  [ ("department").data, ("dept").data, ("division").data, ("unit").data,
    ("team").data, ("office").data, ("branch").data,
    ("sales department").data, ("marketing department").data,
    ("hr department").data, ("it department").data ]

/-- TITLE_KEYWORDS of the company parser. -/
def TITLE_KEYWORDS : List Str :=
  [ ("ceo").data, ("cto").data, ("cfo").data, ("president").data,
    ("director").data, ("manager").data, ("senior").data, ("lead").data,
    ("engineer").data, ("developer").data, ("designer").data,
    ("analyst").data, ("consultant").data, ("specialist").data ]

/-- The per-suffix dynamic pattern of `hasBusinessSuffix`:
`` new RegExp(`\\b${suffix}\\b[.]*$`, 'i') ``. -/
def suffixEndRE (suffix : Str) : RE :=
  RE.seq RE.wb (RE.seq (litCI suffix) (RE.seq RE.wb (RE.star (fun c => c == '.'))))

/-- CompanyParser.hasBusinessSuffix: the end-anchored word-boundary test
or a plain substring test, over the lowercased line. -/
def hasBusinessSuffix (line : Str) : Bool :=
  let lowerLine := lower line
  BUSINESS_SUFFIXES.any (fun suffix =>
    (searchEndAnchored (suffixEndRE suffix) lowerLine).isSome ||
    containsSub lowerLine suffix)

/-- CompanyParser.hasBusinessKeywords. -/
def hasBusinessKeywords (line : Str) : Bool :=
  let lowerLine := lower line
  BUSINESS_KEYWORDS.any (fun keyword => containsSub lowerLine keyword)

/-- CompanyParser.looksLikePersonalName: exactly two `^[A-Z][a-z]+$`
tokens and no business suffix or keyword. -/
def looksLikePersonalName (text : Str) : Bool :=
  let words := jsWords (trim text)
  decide (words.length = 2) &&
  words.all (fun w =>
    reTestFull (RE.seq (RE.cls isUpperC)
      (RE.seq (RE.cls isLowerC) (RE.star isLowerC))) w) &&
  !hasBusinessSuffix text && !hasBusinessKeywords text

/-- CompanyParser.isNotCompany: the disqualification chain, ending with
the letter-ratio test (`letterCount / totalCount < 0.5`, exact on these
magnitudes, is `2 * letterCount < totalCount`). -/
def isNotCompany (line : Str) (excludeName excludeTitle : Option Str) : Bool :=
  let lowerLine := lower line
  if truthy excludeName && (lowerLine == lower (excludeName.getD [])) then true
  else if truthy excludeTitle && (lowerLine == lower (excludeTitle.getD [])) then true
  else if containsSub line (("@").data) || reTest (repCls isDigitC 3) line then true
  else if decide (line.length < 2) || decide (80 < line.length) then true
  else if TITLE_KEYWORDS.any (fun keyword => lowerLine == keyword) then true
  else if DEPARTMENT_WORDS.any (fun dept =>
      lowerLine == dept || containsSub lowerLine dept) then true
  else
    let letterCount := (line.filter isAlphaC).length
    decide (2 * letterCount < line.length)

/-- CompanyParser.cleanCompanyLine: the OCR-artifact fixes in source
order, then whitespace collapse and trim. -/
def cleanCompanyLine (line : Str) : Str :=
  trim (collapseWs
    (replaceAllSub (("LLc").data) (("LLC").data)
      (replaceAllSub (("lnc").data) (("Inc").data)
        (replaceAllSub (("rn").data) (("m").data)
          (EmailParser.mapChar '|' 'I' line)))))

/-- Validation outcome of `validateCompany`. -/
structure CompanyValidation where
  isValid : Bool
  confidenceBoost : Int
  deriving Repr, DecidableEq

/-- CompanyParser.validateCompany: word-count and word-length boosts, the
personal-name rejection, and the all-lowercase penalty. -/
def validateCompany (company : Str) : CompanyValidation :=
  let words := jsWords company
  let confidenceBoost : Int := 0
  let confidenceBoost :=
    if decide (1 ≤ words.length) && decide (words.length ≤ 6) then
      confidenceBoost + 10
    else if decide (6 < words.length) then confidenceBoost - 10
    else confidenceBoost
  let confidenceBoost :=
    if words.all (fun w => decide (2 ≤ w.length) && decide (w.length ≤ 20)) then
      confidenceBoost + 5
    else confidenceBoost
  if looksLikePersonalName company then { isValid := false, confidenceBoost := 0 }
  else
    let confidenceBoost :=
      if company == lower company && !hasBusinessSuffix company then
        confidenceBoost - 10
      else confidenceBoost
    { isValid := true, confidenceBoost := confidenceBoost }

/-- Articles and prepositions kept lowercase by `formatCompany` when not
the first segment. -/
def FORMAT_LOWER_WORDS : List Str :=
  [ ("of").data, ("and").data, ("the").data, ("for").data,
    ("in").data, ("on").data, ("at").data, ("by").data ]

/-- One word of `formatCompany`; the "at beginning" test compares the
word's text with the first `split(' ')` segment. -/
def formatCompanyWord (firstWord word : Str) : Str :=
  let lowerWord := lower word
  if lowerWord == ("llc").data then ("LLC").data
  else if lowerWord == ("inc").data then ("Inc").data
  else if lowerWord == ("corp").data then ("Corp").data
  else if lowerWord == ("ltd").data then ("Ltd").data
  else if FORMAT_LOWER_WORDS.contains lowerWord && !(word == firstWord) then
    lowerWord
  else capitalizeWord word

/-- JavaScript `parts.join(' ')`. -/
def joinSpace : List Str → Str
  | [] => []
  | [x] => x
  | x :: y :: t => x ++ ' ' :: joinSpace (y :: t)

/-- CompanyParser.formatCompany: `split(' ')` keeps empty segments, each
mapped and rejoined with single spaces. -/
def formatCompany (company : Str) : Str :=
  let parts := jsSplit ' ' company
  joinSpace (parts.map (formatCompanyWord (parts.getD 0 [])))

/-- CompanyParser.parseCompanyFromLine. -/
def parseCompanyFromLine (line : Str) (excludeName excludeTitle : Option Str) :
    Option CompanyParseResult :=
  if isNotCompany line excludeName excludeTitle then none
  else
    let confidence : Int := 50
    let cleanLine := cleanCompanyLine line
    let hasSuffix := hasBusinessSuffix cleanLine
    let confidence := if hasSuffix then confidence + 35 else confidence
    let confidence :=
      if hasBusinessKeywords cleanLine then confidence + 20 else confidence
    let validationResult := validateCompany cleanLine
    if !validationResult.isValid then none
    else
      let confidence := confidence + validationResult.confidenceBoost
      some
        { company := formatCompany cleanLine
          confidence := jsMin 95 confidence
          hasBusinessSuffix := hasSuffix
          isValid := true
          corrections := none }

/-- CompanyParser.extractCompany: scan every line, keeping the first
valid candidate of strictly greatest confidence. -/
def extractCompany (text : Str) (excludeName excludeTitle : Option Str) :
    Option CompanyParseResult :=
  let lines := jsLines text
  lines.foldl
    (fun bestCandidate line =>
      match parseCompanyFromLine line excludeName excludeTitle with
      | some result =>
        if result.isValid then
          match bestCandidate with
          | none => some result
          | some b =>
            if b.confidence < result.confidence then some result else some b
        else bestCandidate
      | none => bestCandidate)
    none

end CompanyParser

/-! ## OCRService (src/services/ocrService.ts, src/unnamed/part_014) -/

namespace OCRService

/-- Bounding box of a recognized word. -/
structure Bbox where
  x0 : Int
  y0 : Int
  x1 : Int
  y1 : Int
  deriving Repr, DecidableEq

/-- A recognized word (`OCRResult.words` element). -/
structure OCRWord where
  text : Str
  confidence : Int
  bbox : Bbox
  deriving Repr, DecidableEq

/-- `OCRResult`: raw text, overall confidence, word tokens. -/
structure OCRResult where
  text : Str
  confidence : Int
  words : List OCRWord
  deriving Repr, DecidableEq

/-- Entry of the per-band line lists (`{text, bbox, score}`). -/
structure LayoutLine where
  text : Str
  bbox : Bbox
  score : Int
  deriving Repr, DecidableEq

/-- Entry of the size ranking (`{text, bbox, size}`). -/
structure SizeEntry where
  text : Str
  bbox : Bbox
  size : Int
  deriving Repr, DecidableEq

/-- Vertical band of a token. -/
inductive Band where
  | top : Band
  | middle : Band
  | bottom : Band
  deriving Repr, DecidableEq

/-- Entry of `allLines` (`{text, bbox, position}`). -/
structure AllLine where
  text : Str
  bbox : Bbox
  position : Band
  deriving Repr, DecidableEq

/-- `LayoutAnalysis`. -/
structure LayoutAnalysis where
  topLines : List LayoutLine
  middleLines : List LayoutLine
  bottomLines : List LayoutLine
  largestText : List SizeEntry
  allLines : List AllLine
  cardHeight : Int
  cardWidth : Int
  deriving Repr, DecidableEq

/-- `FieldCandidate.source` tag. -/
inductive Source where
  | pattern : Source
  | layout : Source
  | context : Source
  deriving Repr, DecidableEq

/-- `FieldCandidate`. -/
structure FieldCandidate where
  text : Str
  confidence : Int
  source : Source
  priority : Int
  reasons : List Str
  deriving Repr, DecidableEq

/-- Address component record (`ContactData.address`). -/
structure Address where
  street : Option Str := none
  city : Option Str := none
  state : Option Str := none
  zip : Option Str := none
  country : Option Str := none
  full : Option Str := none
  deriving Repr, DecidableEq

/-- Per-field confidence scores (`ContactData.fieldConfidences`). -/
structure FieldConfidences where
  name : Option Int := none
  title : Option Int := none
  company : Option Int := none
  phone : Option Int := none
  email : Option Int := none
  website : Option Int := none
  address : Option Int := none
  deriving Repr, DecidableEq

/-- `ContactData`, the pipeline's contact record. -/
structure ContactData where
  name : Option Str := none
  title : Option Str := none
  company : Option Str := none
  phone : Option Str := none
  email : Option Str := none
  website : Option Str := none
  address : Option Address := none
  raw_text : Str := []
  confidence : Int := 0
  fieldConfidences : FieldConfidences := {}
  deriving Repr, DecidableEq

/-- JavaScript `x < k` where `x` is a possibly-undefined number
(`undefined < k` is false). -/
def confLt (x : Option Int) (k : Int) : Bool :=
  match x with
  | some v => v < k
  | none => false

/-- Vertical band of one word given the two thirds boundaries, following
the `if (centerY <= topThird) ... else if (centerY >= bottomThird) ...`
chain.  The boundaries involve division by three, which JS performs on
floats; exact rationals are used here, and nothing proved below depends
on the rounding of that division. -/
def classifyWord (topThird bottomThird : ℚ) (w : OCRWord) : Band :=
  let centerY : ℚ := ((w.bbox.y0 : ℚ) + (w.bbox.y1 : ℚ)) / 2
  if centerY ≤ topThird then .top
  else if centerY ≥ bottomThird then .bottom
  else .middle

/-- Accumulated lists of the `words.forEach` loop of `analyzeCardLayout`. -/
structure LayoutAcc where
  top : List LayoutLine := []
  middle : List LayoutLine := []
  bottom : List LayoutLine := []
  all : List AllLine := []
  sizes : List SizeEntry := []
  deriving Repr, DecidableEq

/-- A word with non-blank trimmed text (`if (!word.text.trim()) return`). -/
def nonblankWord (w : OCRWord) : Bool := !(trim w.text).isEmpty

/-- Band-list entry built from a word. -/
def mkLayoutLine (w : OCRWord) : LayoutLine :=
  { text := w.text, bbox := w.bbox, score := w.confidence }

/-- Size-ranking entry built from a word (`size = y1 - y0`). -/
def mkSizeEntry (w : OCRWord) : SizeEntry :=
  { text := w.text, bbox := w.bbox, size := w.bbox.y1 - w.bbox.y0 }

/-- The `words.forEach` loop: skip blank-text words, classify the rest,
keeping traversal order in every produced list. -/
def wordEntries (topThird bottomThird : ℚ) : List OCRWord → LayoutAcc
  | [] => {}
  | w :: ws =>
    let rest := wordEntries topThird bottomThird ws
    if nonblankWord w then
      match classifyWord topThird bottomThird w with
      | .top =>
        { rest with top := mkLayoutLine w :: rest.top,
                    all := { text := w.text, bbox := w.bbox, position := .top } :: rest.all,
                    sizes := mkSizeEntry w :: rest.sizes }
      | .middle =>
        { rest with middle := mkLayoutLine w :: rest.middle,
                    all := { text := w.text, bbox := w.bbox, position := .middle } :: rest.all,
                    sizes := mkSizeEntry w :: rest.sizes }
      | .bottom =>
        { rest with bottom := mkLayoutLine w :: rest.bottom,
                    all := { text := w.text, bbox := w.bbox, position := .bottom } :: rest.all,
                    sizes := mkSizeEntry w :: rest.sizes }
    else rest

/-- Comparator of `largestText.sort((a, b) => b.size - a.size)`. -/
def sizeCmp (a b : SizeEntry) : Int := b.size - a.size

/-- Minimum of a list of integers seeded with a first value
(`Math.min(...)` over a non-empty spread). -/
def intMin (x : Int) (l : List Int) : Int := l.foldl jsMin x

/-- Maximum of a list of integers seeded with a first value. -/
def intMax (x : Int) (l : List Int) : Int := l.foldl jsMax x

/-- `Math.min(...allBboxes.map(b => b.y0))` over the non-empty word list. -/
def cardMinY (w0 : OCRWord) (rest : List OCRWord) : Int :=
  intMin w0.bbox.y0 (rest.map (fun w => w.bbox.y0))

/-- `Math.max(...allBboxes.map(b => b.y1))`. -/
def cardMaxY (w0 : OCRWord) (rest : List OCRWord) : Int :=
  intMax w0.bbox.y1 (rest.map (fun w => w.bbox.y1))

/-- `minY + cardHeight / 3`. -/
def topThirdOf (w0 : OCRWord) (rest : List OCRWord) : ℚ :=
  (cardMinY w0 rest : ℚ) + ((cardMaxY w0 rest - cardMinY w0 rest : Int) : ℚ) / 3

/-- `minY + 2 * cardHeight / 3`. -/
def bottomThirdOf (w0 : OCRWord) (rest : List OCRWord) : ℚ :=
  (cardMinY w0 rest : ℚ) + 2 * ((cardMaxY w0 rest - cardMinY w0 rest : Int) : ℚ) / 3

/-- OCRService.analyzeCardLayout.  Throws (`Except.error`) when no word
data is available. -/
def analyzeCardLayout (r : OCRResult) : Except Str LayoutAnalysis :=
  match r.words with
  | [] => .error (("No word data available for layout analysis").data)
  | w0 :: rest =>
    let words := w0 :: rest
    let minX := intMin w0.bbox.x0 (rest.map (fun w => w.bbox.x0))
    let maxX := intMax w0.bbox.x1 (rest.map (fun w => w.bbox.x1))
    let cardWidth := maxX - minX
    let cardHeight := cardMaxY w0 rest - cardMinY w0 rest
    let acc := wordEntries (topThirdOf w0 rest) (bottomThirdOf w0 rest) words
    .ok
      { topLines := acc.top
        middleLines := acc.middle
        bottomLines := acc.bottom
        largestText := jsSortBy sizeCmp acc.sizes
        allLines := acc.all
        cardHeight := cardHeight
        cardWidth := cardWidth }

/-! ### Address extraction -/

/-- `\b\d{5}(-\d{4})?\b` (zipPattern). -/
def zipRE : RE :=
  seqAll
    [ RE.wb, repCls isDigitC 5,
      RE.opt (RE.seq (RE.cls (fun c => c == '-')) (repCls isDigitC 4)),
      RE.wb ]

/-- Character class `[\w\s]`. -/
def wsWordC (c : Char) : Bool := isWordC c || isWsC c

/-- One-or-more repetition of a character class. -/
def plusCls (f : Char → Bool) : RE := RE.seq (RE.cls f) (RE.star f)

/-- First street pattern:
`\d+\s+[\w\s]+(?:street|st|avenue|ave|road|rd|drive|dr|lane|ln|boulevard|blvd|way|place|pl|court|ct)\b`
with the `/i` flag. -/
def streetRE1 : RE :=
  seqAll
    [ plusCls isDigitC, plusCls isWsC, plusCls wsWordC,
      altAll
        [ litCI (("street").data), litCI (("st").data),
          litCI (("avenue").data), litCI (("ave").data),
          litCI (("road").data), litCI (("rd").data),
          litCI (("drive").data), litCI (("dr").data),
          litCI (("lane").data), litCI (("ln").data),
          litCI (("boulevard").data), litCI (("blvd").data),
          litCI (("way").data), litCI (("place").data), litCI (("pl").data),
          litCI (("court").data), litCI (("ct").data) ],
      RE.wb ]

/-- Second street pattern: `\d+\s+[\w\s]+\b`. -/
def streetRE2 : RE :=
  seqAll [plusCls isDigitC, plusCls isWsC, plusCls wsWordC, RE.wb]

/-- `([A-Z]{2})\s*$` — trailing state abbreviation. -/
def stateEndRE : RE :=
  seqAll [RE.cls isUpperC, RE.cls isUpperC, RE.star isWsC]

/-- `join(', ')`. -/
def joinCommaSpace (parts : List Str) : Str :=
  match parts with
  | [] => []
  | [p] => p
  | p :: rest => p ++ (", ").data ++ joinCommaSpace rest

/-- OCRService.extractAddress: anchor on a zip line (deriving city and
state from the text before the zip), then scan the remaining lines for a
street pattern, and assemble the full address. -/
def extractAddress (lines : List Str) : Option Address :=
  let zipInfo := lines.findSome? (fun line =>
    match jsMatch zipRE line with
    | some (_, m, _) =>
      let beforeZip := trim (line.take ((indexOfSub line m).getD 0))
      let stZip :=
        match searchEndAnchored stateEndRE beforeZip with
        | some sm =>
          let st := sm.take 2
          let cityPart := trim (beforeZip.take ((lastIndexOfSub beforeZip st).getD 0))
          let city :=
            if cityPart.reverse.headD ' ' == ',' then trim cityPart.dropLast
            else cityPart
          (some st, some city)
        | none => (none, none)
      some (m, stZip.1, stZip.2, line)
    | none => none)
  let address : Address :=
    match zipInfo with
    | some (z, st, city, _) => { zip := some z, state := st, city := city }
    | none => {}
  let addressLines : List Str :=
    match zipInfo with
    | some (_, _, _, line) => [line]
    | none => []
  let street := (lines.filter (fun l => !addressLines.contains l)).find?
    (fun line => reTest streetRE1 line || reTest streetRE2 line)
  let address := { address with street := street }
  if truthy address.street || truthy address.city || truthy address.zip then
    let fullParts : List Str :=
      (if truthy address.street then [address.street.getD []] else []) ++
      (if truthy address.city then
        let cityState := address.city.getD []
        let cityState :=
          match address.state with
          | some st => if !st.isEmpty then cityState ++ (", ").data ++ st else cityState
          | none => cityState
        let cityState :=
          match address.zip with
          | some z => if !z.isEmpty then cityState ++ ' ' :: z else cityState
          | none => cityState
        [cityState]
      else [])
    some { address with full := some (joinCommaSpace fullParts) }
  else none

/-- OCRService.calculateAddressConfidence. -/
def calculateAddressConfidence (address : Option Address) : Int :=
  match address with
  | none => 0
  | some a =>
    let c : Int := 0
    let c := if truthy a.street then c + 30 else c
    let c := if truthy a.city then c + 25 else c
    let c := if truthy a.state then c + 20 else c
    let c := if truthy a.zip then c + 25 else c
    jsMin c 95

/-! ### Structured field detection -/

/-- OCRService.detectContactInfoWithStructure: enhanced e-mail and phone
detection; `parseContactDataBasic` inlines the identical assignments, so
both paths share this definition. -/
def detectContactInfoWithStructure (cd : ContactData) (text : Str) : ContactData :=
  let emailResults := EmailParser.extractEmails text
  let primaryEmail := EmailParser.getPrimaryEmail emailResults
  let cd :=
    match primaryEmail with
    | some p =>
      { cd with
          email := some p.email
          website := some (EmailParser.deriveWebsite p.email)
          fieldConfidences :=
            { cd.fieldConfidences with
                email := some p.confidence
                website := some (jsMax 80 (p.confidence - 10)) } }
    | none => cd
  let phoneResults := PhoneParser.extractPhones text
  let primaryPhone := PhoneParser.getPrimaryPhone phoneResults
  match primaryPhone with
  | some p =>
    { cd with
        phone := some p.formatted
        fieldConfidences := { cd.fieldConfidences with phone := some p.confidence } }
  | none => cd

/-- Title keywords of `getTitleCandidates` (and of the layout title
detection). -/
def TITLE_KEYWORDS_LAYOUT : List Str :=
  [ ("ceo").data, ("cto").data, ("cfo").data, ("president").data,
    ("vice president").data, ("vp").data, ("director").data,
    ("manager").data, ("senior").data, ("lead").data, ("head").data,
    ("chief").data, ("principal").data, ("associate").data,
    ("coordinator").data, ("specialist").data, ("analyst").data,
    ("consultant").data, ("engineer").data, ("developer").data,
    ("designer").data, ("architect").data, ("supervisor").data,
    ("executive").data ]

/-- Candidate built from one layout line by `getTitleCandidates`.
`isMiddle` records whether the item came from `layout.middleLines`
(the JS `includes` test is on object identity, so provenance decides). -/
def titleCandidateOf (isMiddle : Bool) (item : LayoutLine) : Option FieldCandidate :=
  let text := trim item.text
  let lowerText := lower text
  let matching := TITLE_KEYWORDS_LAYOUT.filter (fun k => containsSub lowerText k)
  if !matching.isEmpty && 2 < text.length && text.length < 40 &&
      !containsSub text (("@").data) && !reTest (repCls isDigitC 3) text then
    let confidence : Int := 70 + matching.length * 10
    let confidence := if isMiddle then confidence + 15 else confidence
    some
      { text := text
        confidence := jsMin confidence 95
        source := .pattern
        priority := confidence
        reasons := [("Contains title keywords").data] }
  else none

/-- OCRService.getTitleCandidates: middle, then top, then bottom lines,
sorted by priority (stable, descending). -/
def getTitleCandidates (layout : LayoutAnalysis) : List FieldCandidate :=
  let candidates :=
    (layout.middleLines.filterMap (titleCandidateOf true)) ++
    (layout.topLines.filterMap (titleCandidateOf false)) ++
    (layout.bottomLines.filterMap (titleCandidateOf false))
  jsSortBy (fun a b => b.priority - a.priority) candidates

/-- OCRService.selectBestFieldCandidate for the title field: first
candidate with confidence at least 60 wins. -/
def selectBestTitleCandidate (cd : ContactData) (candidates : List FieldCandidate) :
    ContactData :=
  match candidates.filter (fun c => 60 ≤ c.confidence) with
  | [] => cd
  | best :: _ =>
    { cd with
        title := some best.text
        fieldConfidences := { cd.fieldConfidences with title := some best.confidence } }

/-- Shared name-and-company section of `detectFieldsWithStructure` and
`parseContactDataBasic` (the source repeats the same assignments in both
methods). -/
def detectNameAndCompany (cd : ContactData) : ContactData :=
  let nameResult := NameParser.extractName cd.raw_text none
  let cd :=
    match nameResult with
    | some nr =>
      let cd :=
        { cd with
            name := some nr.name
            fieldConfidences := { cd.fieldConfidences with name := some nr.confidence } }
      match nr.title with
      | some t =>
        if !t.isEmpty then
          { cd with
              title := some t
              fieldConfidences :=
                { cd.fieldConfidences with title := some (jsMax 70 (nr.confidence - 10)) } }
        else cd
      | none => cd
    | none => cd
  match CompanyParser.extractCompany cd.raw_text cd.name cd.title with
  | some cr =>
    { cd with
        company := some cr.company
        fieldConfidences := { cd.fieldConfidences with company := some cr.confidence } }
  | none => cd

/-- OCRService.detectFieldsWithStructure. -/
def detectFieldsWithStructure (cd : ContactData) (layout : LayoutAnalysis)
    (lines : List Str) : ContactData :=
  let cd := detectNameAndCompany cd
  let cd :=
    if !truthy cd.title then
      selectBestTitleCandidate cd (getTitleCandidates layout)
    else cd
  match extractAddress lines with
  | some a =>
    { cd with
        address := some a
        fieldConfidences :=
          { cd.fieldConfidences with
              address := some (calculateAddressConfidence (some a)) } }
  | none => cd

/-! ### Confidence Arbiter (`validateAndCleanFields`) -/

/-- Title vocabulary of arbitration rule 1. -/
def RULE1_TITLE_KEYWORDS : List Str :=
  [ ("ceo").data, ("cto").data, ("cfo").data, ("president").data,
    ("vp").data, ("director").data, ("manager").data ]

/-- Business-entity vocabulary of arbitration rule 3. -/
def RULE3_BUSINESS_KEYWORDS : List Str :=
  [ ("llc").data, ("inc").data, ("corp").data, ("company").data ]

/-- Rule 1: a name containing title keywords is discarded — but only
when a title is also present (the source guards on both fields). -/
def rule1 (cd : ContactData) : ContactData :=
  if truthy cd.name && truthy cd.title then
    let nameLower := lower (cd.name.getD [])
    if RULE1_TITLE_KEYWORDS.any (fun k => containsSub nameLower k) then
      { cd with
          name := none
          fieldConfidences := { cd.fieldConfidences with name := some 0 } }
    else cd
  else cd

/-- Rule 2: a company equal to the name (case-insensitive) is discarded. -/
def rule2 (cd : ContactData) : ContactData :=
  if truthy cd.name && truthy cd.company &&
      lower (cd.name.getD []) == lower (cd.company.getD []) then
    { cd with
        company := none
        fieldConfidences := { cd.fieldConfidences with company := some 0 } }
  else cd

/-- Rule 3: a title containing business-entity keywords is reassigned to
company when company is empty and the title confidence is below 80. -/
def rule3 (cd : ContactData) : ContactData :=
  if truthy cd.title then
    let titleLower := lower (cd.title.getD [])
    if RULE3_BUSINESS_KEYWORDS.any (fun k => containsSub titleLower k) then
      if !truthy cd.company && confLt cd.fieldConfidences.title 80 then
        { cd with
            company := cd.title
            title := none
            fieldConfidences :=
              { cd.fieldConfidences with
                  company := cd.fieldConfidences.title
                  title := some 0 } }
      else cd
    else cd
  else cd

/-- Rule 4: minimum confidence enforcement (name 50, title 60,
company 50); an absent confidence never clears the field, since the JS
comparison `undefined < k` is false. -/
def rule4 (cd : ContactData) : ContactData :=
  let cd := if confLt cd.fieldConfidences.name 50 then { cd with name := none } else cd
  let cd := if confLt cd.fieldConfidences.title 60 then { cd with title := none } else cd
  if confLt cd.fieldConfidences.company 50 then { cd with company := none } else cd

/-- OCRService.validateAndCleanFields: the four arbitration rules in
their fixed source order. -/
def validateAndCleanFields (cd : ContactData) : ContactData :=
  rule4 (rule3 (rule2 (rule1 cd)))

/-! ### Pipeline entry points -/

/-- OCRService.detectFieldsWithLayout. -/
def detectFieldsWithLayout (layout : LayoutAnalysis) (lines : List Str)
    (text : Str) : ContactData :=
  let cd : ContactData := { raw_text := text, confidence := 75, fieldConfidences := {} }
  let cd := detectContactInfoWithStructure cd text
  let cd := detectFieldsWithStructure cd layout lines
  validateAndCleanFields cd

/-- Extended title keyword list of the basic parser's fallback title
scan. -/
def TITLE_KEYWORDS_BASIC : List Str :=
  TITLE_KEYWORDS_LAYOUT ++
  [ ("marketing director").data, ("senior software engineer").data,
    ("software engineer").data ]

/-- OCRService.parseContactDataBasic: enhanced parsers without layout,
plus a line-scan fallback for the title. -/
def parseContactDataBasic (r : OCRResult) : ContactData :=
  let text := r.text
  let lines := jsLines text
  let cd : ContactData :=
    { raw_text := text, confidence := r.confidence, fieldConfidences := {} }
  let cd := detectContactInfoWithStructure cd text
  let cd := detectNameAndCompany cd
  let cd :=
    if !truthy cd.title then
      match lines.find? (fun line =>
          let lowerLine := lower line
          TITLE_KEYWORDS_BASIC.any (fun k => containsSub lowerLine k) &&
          !(cd.name == some line) && !(cd.company == some line) &&
          !containsSub line (("@").data) && !reTest (repCls isDigitC 3) line &&
          2 < line.length && line.length < 50) with
      | some line =>
        { cd with
            title := some line
            fieldConfidences := { cd.fieldConfidences with title := some 75 } }
      | none => cd
    else cd
  match extractAddress lines with
  | some a => { cd with address := some a }
  | none => cd

/-- OCRService.parseContactDataWithLayout: layout-aware detection with a
fallback to basic parsing when layout analysis fails. -/
def parseContactDataWithLayout (r : OCRResult) : ContactData :=
  match analyzeCardLayout r with
  | .ok layout => detectFieldsWithLayout layout (jsLines r.text) r.text
  | .error _ => parseContactDataBasic r

end OCRService

/-! ## HybridOcrService (src/services/hybridOcrService.ts)

The two recognition backends and the two reachability probes are external
collaborators; their outcomes enter the model as inputs.  Timing and the
analytics log (which the claims do not touch) are not modelled. -/

namespace Hybrid

/-- Backend identifier (`'google-vision' | 'tesseract'`). -/
inductive Processor where
  | googleVision : Processor
  | tesseract : Processor
  deriving Repr, DecidableEq

/-- Fallback choice (`'tesseract' | 'google-vision' | 'none'`). -/
inductive Fallback where
  | tesseract : Fallback
  | googleVision : Fallback
  | noFallback : Fallback
  deriving Repr, DecidableEq

/-- `ProcessingStrategy`. -/
structure ProcessingStrategy where
  primary : Processor
  fallback : Fallback
  reason : Str
  deriving Repr, DecidableEq

/-- Backend error kinds of the adapter contract (§6 of the spec); the
orchestrator treats every kind alike. -/
inductive OcrError where
  | quotaExceeded : OcrError
  | networkError : OcrError
  | authMissing : OcrError
  | timeout : OcrError
  | malformedResponse : OcrError
  | other : Str → OcrError
  deriving Repr, DecidableEq

/-- `HybridOcrConfig` (fields that strategy selection reads). -/
structure HybridOcrConfig where
  googleVisionApiKey : Option Str := none
  forceOfflineMode : Bool := false
  deriving Repr, DecidableEq

/-- One request's environment: configuration, probe outcomes, quota
state, and the outcome each backend would produce if invoked. -/
structure HybridEnv where
  config : HybridOcrConfig
  hasServiceAccount : Bool
  isOnline : Bool
  remainingRequests : Int
  googleVisionResult : Except OcrError OCRService.ContactData
  tesseractResult : Except OcrError OCRService.ContactData

/-- `ProcessingResult` (contact data plus processing metadata;
`fallbackUsed` is absent, not false, on the error path). -/
structure ProcessingResult where
  data : OCRService.ContactData
  processor : Processor
  strategy : ProcessingStrategy
  fallbackUsed : Option Bool
  error : Option OcrError
  deriving Repr, DecidableEq

/-- HybridOcrService.determineStrategy: forced offline, then missing
credentials, then network, then quota, then the default. -/
def determineStrategy (env : HybridEnv) : ProcessingStrategy :=
  if env.config.forceOfflineMode then
    { primary := .tesseract, fallback := .noFallback
      reason := ("Force offline mode enabled").data }
  else if !truthy env.config.googleVisionApiKey && !env.hasServiceAccount then
    { primary := .tesseract, fallback := .noFallback
      reason := ("Google Vision API not configured").data }
  else if !env.isOnline then
    { primary := .tesseract, fallback := .noFallback
      reason := ("Network connectivity unavailable").data }
  else if env.remainingRequests ≤ 0 then
    { primary := .tesseract, fallback := .noFallback
      reason := ("Google Vision API monthly limit reached").data }
  else
    { primary := .googleVision, fallback := .tesseract
      reason := ("Optimal accuracy and speed").data }

/-- The empty contact record returned on the terminal error path. -/
def emptyErrorData : OCRService.ContactData :=
  { raw_text := [], confidence := 0, fieldConfidences := {} }

/-- HybridOcrService.processImage: try the primary backend; on any
primary failure retry with the configured fallback; a missing or failing
fallback yields the terminal error result (the outer catch). -/
def processImage (env : HybridEnv) : ProcessingResult :=
  let strategy := determineStrategy env
  match strategy.primary with
  | .googleVision =>
    match env.googleVisionResult with
    | .ok result =>
      { data := result, processor := .googleVision, strategy := strategy
        fallbackUsed := some false, error := none }
    | .error e =>
      if strategy.fallback == Fallback.tesseract then
        match env.tesseractResult with
        | .ok result =>
          { data := result, processor := .tesseract, strategy := strategy
            fallbackUsed := some true, error := none }
        | .error e2 =>
          { data := emptyErrorData, processor := strategy.primary
            strategy := strategy, fallbackUsed := none, error := some e2 }
      else
        { data := emptyErrorData, processor := strategy.primary
          strategy := strategy, fallbackUsed := none, error := some e }
  | .tesseract =>
    match env.tesseractResult with
    | .ok result =>
      { data := result, processor := .tesseract, strategy := strategy
        fallbackUsed := some false, error := none }
    | .error e =>
      { data := emptyErrorData, processor := strategy.primary
        strategy := strategy, fallbackUsed := none, error := some e }

end Hybrid

/-! ## Claim-specific concrete inputs and spec-side definitions -/

open OCRService

/-- Claim-version of `validateAndScore` following the specification's
words on domain validation: "+10 confidence on match, −15 if unmatched",
before the final clamping; every other step is as in the code. -/
def EmailParser.validateAndScoreClaimed (email : Str) (baseConfidence : Int)
    (hadOCRCorrections : Bool) : EmailParser.EmailParseResult :=
  let confidence := baseConfidence
  let confidence := if EmailParser.emailFormatValid email then confidence else 0
  let confidence :=
    if EmailParser.emailHasValidTLD email then confidence + 10 else confidence - 15
  let confidence := if hadOCRCorrections then confidence - 10 else confidence
  let isPrimary := EmailParser.emailIsPrimary email
  let confidence :=
    if isPrimary && !EmailParser.emailIsPersonal email then confidence + 10 else confidence
  { email := email
    confidence := EmailParser.clamp100 confidence
    isPrimary := isPrimary
    domain := EmailParser.emailDomain email
    isValid := decide (50 < confidence) }

/-- The domain part of an e-mail address as the claims describe it: the
text after the `@`. -/
def domainPart (email : Str) : Str :=
  (email.dropWhile (fun c => !(c == '@'))).tail

/-- A recognition result whose only token carries the name line twice;
the name parser splits a title out of it, the arbiter's rule 3 copies
that title into the company. -/
def layoutPathInput : OCRResult :=
  { text := ("HRDIVISIONINC Lead HRDIVISIONINC Lead").data
    confidence := 80
    words :=
      [ { text := ("HRDIVISIONINC").data
          confidence := 90
          bbox := { x0 := 0, y0 := 0, x1 := 10, y1 := 10 } } ] }

/-- A token-free recognition result whose five-word line is accepted as a
name at confidence 45, below the arbiter's floor of 50. -/
def basicPathInput : OCRResult :=
  { text := ("aaa bbb ccc ddd eeeeeeeeeeeeeeeee").data
    confidence := 70
    words := [] }

/-- A token-free recognition result carrying one e-mail address. -/
def emailInput : OCRResult :=
  { text := ("a@b.com").data, confidence := 70, words := [] }

/-- A recognition result with a single whitespace-text token. -/
def blankTokenInput : OCRResult :=
  { text := ("x").data
    confidence := 70
    words :=
      [ { text := (" ").data
          confidence := 95
          bbox := { x0 := 0, y0 := 0, x1 := 10, y1 := 10 } } ] }

/-- A record whose name carries the title keyword "ceo" while no title
field is set. -/
def keywordNameRecord : ContactData :=
  { name := some (("Ceo Smith").data)
    raw_text := ("Ceo Smith").data
    confidence := 80
    fieldConfidences := { name := some 70 } }

/-- A record with distinct name and company and no title, used to
instantiate the amended name-company claim. -/
def distinctFieldsRecord : ContactData :=
  { name := some (("John Smith").data)
    company := some (("Acme Inc").data)
    raw_text := []
    confidence := 80
    fieldConfidences := { name := some 80, company := some 85 } }

/-! ## Arbiter structure lemmas -/

/-- Rule 2 never modifies the name. -/
theorem rule2_name (cd : ContactData) : (rule2 cd).name = cd.name := by
  simp only [rule2]; split_ifs <;> rfl

/-- Rule 3 never modifies the name. -/
theorem rule3_name (cd : ContactData) : (rule3 cd).name = cd.name := by
  simp only [rule3]; split_ifs <;> rfl

/-- Rule 2 never modifies the name confidence. -/
theorem rule2_fcName (cd : ContactData) :
    (rule2 cd).fieldConfidences.name = cd.fieldConfidences.name := by
  simp only [rule2]; split_ifs <;> rfl

/-- Rule 3 never modifies the name confidence. -/
theorem rule3_fcName (cd : ContactData) :
    (rule3 cd).fieldConfidences.name = cd.fieldConfidences.name := by
  simp only [rule3]; split_ifs <;> rfl

/-- Rule 4 only clears fields: its output name is the input name gated by
the confidence floor, and confidences are untouched. -/
theorem rule4_name (cd : ContactData) :
    (rule4 cd).name = if confLt cd.fieldConfidences.name 50 then none else cd.name := by
  simp only [rule4]; split_ifs <;> rfl

/-- Rule 4 never modifies confidences. -/
theorem rule4_fc (cd : ContactData) :
    (rule4 cd).fieldConfidences = cd.fieldConfidences := by
  simp only [rule4]; split_ifs <;> rfl

/-- Rule 1 never modifies company, company confidence, or title. -/
theorem rule1_company (cd : ContactData) :
    (rule1 cd).company = cd.company ∧
    (rule1 cd).fieldConfidences.company = cd.fieldConfidences.company ∧
    (rule1 cd).title = cd.title := by
  simp only [rule1]; split_ifs <;> exact ⟨rfl, rfl, rfl⟩

/-- Rule 2 never modifies the title. -/
theorem rule2_title (cd : ContactData) : (rule2 cd).title = cd.title := by
  simp only [rule2]; split_ifs <;> rfl

/-- Rule 4's output company is the input company gated by the floor. -/
theorem rule4_company (cd : ContactData) :
    (rule4 cd).company =
      if confLt cd.fieldConfidences.company 50 then none else cd.company := by
  simp only [rule4]; split_ifs <;> rfl

/-! ## Claim C1 -/

/-- Claim C1: when the chosen strategy has google-vision as primary with
tesseract as fallback and the primary invocation fails with a
quota-exceeded error while the fallback invocation succeeds, processImage
returns the fallback's data with processor tesseract and
fallbackUsed set to true. -/
theorem C1_quota_fallback_uses_tesseract (env : Hybrid.HybridEnv)
    (r : ContactData)
    (hp : (Hybrid.determineStrategy env).primary = Hybrid.Processor.googleVision)
    (hf : (Hybrid.determineStrategy env).fallback = Hybrid.Fallback.tesseract)
    (hg : env.googleVisionResult = .error .quotaExceeded)
    (ht : env.tesseractResult = .ok r) :
    Hybrid.processImage env =
      { data := r
        processor := Hybrid.Processor.tesseract
        strategy := Hybrid.determineStrategy env
        fallbackUsed := some true
        error := none } := by
  simp only [Hybrid.processImage, hp, hg, hf, ht]
  simp

/-- Witness for C1 at a concrete environment: an available, online,
in-quota cloud configuration whose cloud call fails on quota. -/
theorem C1_witness :
    Hybrid.processImage
      { config := { googleVisionApiKey := some (("key").data), forceOfflineMode := false }
        hasServiceAccount := false
        isOnline := true
        remainingRequests := 5
        googleVisionResult := .error .quotaExceeded
        tesseractResult := .ok { raw_text := ("t").data, confidence := 60 } } =
      { data := { raw_text := ("t").data, confidence := 60 }
        processor := Hybrid.Processor.tesseract
        strategy := Hybrid.determineStrategy
          { config := { googleVisionApiKey := some (("key").data), forceOfflineMode := false }
            hasServiceAccount := false
            isOnline := true
            remainingRequests := 5
            googleVisionResult := .error .quotaExceeded
            tesseractResult := .ok { raw_text := ("t").data, confidence := 60 } }
        fallbackUsed := some true
        error := none } :=
  C1_quota_fallback_uses_tesseract _ _ (by decide) (by decide) rfl rfl

/-! ## Claim C2 -/

/-- Claim C2: strategy selection evaluates forced-offline, missing
credentials, network, and quota in that order, each earlier condition
overriding all later ones regardless of their state, and when none holds
the strategy is cloud primary with local fallback. -/
theorem C2_strategy_precedence (env : Hybrid.HybridEnv) :
    (env.config.forceOfflineMode = true →
      Hybrid.determineStrategy env =
        { primary := .tesseract, fallback := .noFallback
          reason := ("Force offline mode enabled").data }) ∧
    (env.config.forceOfflineMode = false →
      truthy env.config.googleVisionApiKey = false → env.hasServiceAccount = false →
      Hybrid.determineStrategy env =
        { primary := .tesseract, fallback := .noFallback
          reason := ("Google Vision API not configured").data }) ∧
    (env.config.forceOfflineMode = false →
      (truthy env.config.googleVisionApiKey || env.hasServiceAccount) = true →
      env.isOnline = false →
      Hybrid.determineStrategy env =
        { primary := .tesseract, fallback := .noFallback
          reason := ("Network connectivity unavailable").data }) ∧
    (env.config.forceOfflineMode = false →
      (truthy env.config.googleVisionApiKey || env.hasServiceAccount) = true →
      env.isOnline = true → env.remainingRequests ≤ 0 →
      Hybrid.determineStrategy env =
        { primary := .tesseract, fallback := .noFallback
          reason := ("Google Vision API monthly limit reached").data }) ∧
    (env.config.forceOfflineMode = false →
      (truthy env.config.googleVisionApiKey || env.hasServiceAccount) = true →
      env.isOnline = true → 0 < env.remainingRequests →
      Hybrid.determineStrategy env =
        { primary := .googleVision, fallback := .tesseract
          reason := ("Optimal accuracy and speed").data }) := by
  unfold Hybrid.determineStrategy
  refine ⟨fun h1 => by simp [h1], fun h1 h2 h3 => by simp [h1, h2, h3],
    fun h1 h2 h3 => ?_, fun h1 h2 h3 h4 => ?_, fun h1 h2 h3 h4 => ?_⟩
  · rw [Bool.or_eq_true] at h2
    rcases h2 with h2 | h2 <;> simp [h1, h2, h3]
  · rw [Bool.or_eq_true] at h2
    rcases h2 with h2 | h2 <;> simp [h1, h2, h3, h4]
  · rw [Bool.or_eq_true] at h2
    have h4' : ¬env.remainingRequests ≤ 0 := by omega
    rcases h2 with h2 | h2 <;> simp [h1, h2, h3, h4']

/-- Witness for C2 at two concrete environments: the forced-offline
clause and the all-clear default clause. -/
theorem C2_witness :
    Hybrid.determineStrategy
      { config := { googleVisionApiKey := none, forceOfflineMode := true }
        hasServiceAccount := true, isOnline := true, remainingRequests := 5
        googleVisionResult := .error .timeout, tesseractResult := .error .timeout } =
      { primary := .tesseract, fallback := .noFallback
        reason := ("Force offline mode enabled").data } ∧
    Hybrid.determineStrategy
      { config := { googleVisionApiKey := some (("key").data), forceOfflineMode := false }
        hasServiceAccount := false, isOnline := true, remainingRequests := 5
        googleVisionResult := .error .timeout, tesseractResult := .error .timeout } =
      { primary := .googleVision, fallback := .tesseract
        reason := ("Optimal accuracy and speed").data } :=
  ⟨(C2_strategy_precedence _).1 rfl,
   (C2_strategy_precedence _).2.2.2.2 rfl (by decide) rfl (by decide)⟩

/-! ## Claim C6 -/

/-- Claim C6: a recognition result with an empty token sequence makes the
layout analyzer raise its recoverable error, and the pipeline returns the
basic line-based parse of the raw text instead of failing. -/
theorem C6_empty_tokens_fallback (r : OCRResult) (h : r.words = []) :
    (∃ msg, analyzeCardLayout r = .error msg) ∧
    parseContactDataWithLayout r = parseContactDataBasic r := by
  have ha : analyzeCardLayout r = .error (("No word data available for layout analysis").data) := by
    unfold analyzeCardLayout
    rw [h]
  exact ⟨⟨_, ha⟩, by unfold parseContactDataWithLayout; rw [ha]⟩

/-- Witness for C6 at a concrete token-free recognition result. -/
theorem C6_witness :
    (∃ msg, analyzeCardLayout emailInput = .error msg) ∧
    parseContactDataWithLayout emailInput = parseContactDataBasic emailInput :=
  C6_empty_tokens_fallback emailInput rfl

/-! ## Claim C4 -/

/-- Counterexample to claim C4 as stated: a record whose name contains
the title keyword "ceo" but whose title field is empty keeps its name
through arbitration — the discard is not unconditional. -/
theorem C4_counterexample :
    (RULE1_TITLE_KEYWORDS.any fun k =>
      containsSub (lower (keywordNameRecord.name.getD [])) k) = true ∧
    keywordNameRecord.title = none ∧
    (validateAndCleanFields keywordNameRecord).name = some (("Ceo Smith").data) := by
  refine ⟨by decide, rfl, by decide⟩

/-- Claim C4 amended: the Confidence Arbiter discards a keyword-bearing
name only when the title field is also set; under that extra condition
the name is always cleared, whatever the other fields hold. -/
theorem C4_amended_title_keyword_discard (cd : ContactData)
    (hn : truthy cd.name = true) (ht : truthy cd.title = true)
    (hk : (RULE1_TITLE_KEYWORDS.any fun k =>
      containsSub (lower (cd.name.getD [])) k) = true) :
    (validateAndCleanFields cd).name = none := by
  have h1 : rule1 cd =
      { cd with name := none
                fieldConfidences := { cd.fieldConfidences with name := some 0 } } := by
    simp only [rule1, hn, ht, hk]
    simp
  unfold validateAndCleanFields
  rw [h1, rule4_name, rule3_fcName, rule2_fcName, rule3_name, rule2_name]
  simp [confLt]

/-- Witness for C4's amended claim at a concrete record with both name
and title set. -/
theorem C4_witness :
    (validateAndCleanFields
      { name := some (("Ceo Smith").data)
        title := some (("Manager").data)
        raw_text := []
        confidence := 80
        fieldConfidences := { name := some 70, title := some 75 } }).name = none :=
  C4_amended_title_keyword_discard _ (by decide) (by decide) (by decide)

/-! ## Claim C8 -/

/-- Counterexample to claim C8 as stated: the line "aaa bbb ccc ddd eee"
has five tokens, none capitalized, yet the name extractor accepts it. -/
theorem C8_counterexample :
    (jsWords (("aaa bbb ccc ddd eee").data)).length = 5 ∧
    NameParser.extractName (("aaa bbb ccc ddd eee").data) none =
      some
        { name := ("Aaa Bbb Ccc Ddd Eee").data
          confidence := 50
          title := none
          isValid := true
          separatedFromTitle := false } := by
  exact ⟨by decide, by decide⟩

/-- Claim C8 amended: without a pattern bonus in play, `validateName`
accepts exactly the candidates with at least two whitespace-delimited
tokens and no digit; more than four tokens only costs confidence, and
capitalization is not required for acceptance. -/
theorem C8_amended_name_validation (name : Str) :
    (NameParser.validateName name).1 = true ↔
      (2 ≤ (jsWords name).length ∧ name.all (fun c => !isDigitC c) = true) := by
  by_cases h1 : (jsWords name).length < 2
  · simp only [NameParser.validateName, h1, if_true]
    constructor
    · intro h
      exact absurd h (by simp)
    · intro h
      exact absurd h.1 (by omega)
  · by_cases h2 : name.any isDigitC = true
    · simp only [NameParser.validateName, h1, if_false, h2, if_true]
      constructor
      · intro h
        exact absurd h (by simp)
      · rintro ⟨-, hall⟩
        rw [List.any_eq_true] at h2
        obtain ⟨c, hc, hd⟩ := h2
        rw [List.all_eq_true] at hall
        have := hall c hc
        rw [hd] at this
        exact absurd this (by decide)
    · simp only [NameParser.validateName, h1, if_false,
        Bool.not_eq_true] at h2 ⊢
      rw [h2]
      simp only [Bool.false_eq_true, if_false]
      constructor
      · intro _
        refine ⟨by omega, ?_⟩
        rw [List.all_eq_true]
        intro c hc
        rw [List.any_eq_false] at h2
        simpa using h2 c hc
      · intro _
        trivial

/-- Witness for C8's amended claim: "john smith" (two lowercase tokens,
no digits) is accepted by `validateName`. -/
theorem C8_witness :
    (NameParser.validateName (("john smith").data)).1 = true :=
  (C8_amended_name_validation _).mpr ⟨by decide, by decide⟩

/-! ## Claim C10 -/

/-- Claim C10: when layout analysis is unavailable the pipeline returns
exactly the basic parser's output; the arbiter enforces the name floor on
every record it processes, yet a concrete basic-path output violates that
floor — so none of the arbitration rules ran on it. -/
theorem C10_basic_path_no_arbitration :
    (∀ r : OCRResult, r.words = [] →
      parseContactDataWithLayout r = parseContactDataBasic r) ∧
    (∀ cd : ContactData,
      ¬(truthy (validateAndCleanFields cd).name = true ∧
        confLt (validateAndCleanFields cd).fieldConfidences.name 50 = true)) ∧
    (basicPathInput.words = [] ∧
      truthy (parseContactDataWithLayout basicPathInput).name = true ∧
      confLt (parseContactDataWithLayout basicPathInput).fieldConfidences.name 50 = true) := by
  refine ⟨?_, ?_, rfl, by decide, by decide⟩
  · intro r h
    have ha : analyzeCardLayout r =
        .error (("No word data available for layout analysis").data) := by
      unfold analyzeCardLayout
      rw [h]
    unfold parseContactDataWithLayout
    rw [ha]
  · intro cd h
    obtain ⟨h1, h2⟩ := h
    unfold validateAndCleanFields at h1 h2
    rw [rule4_fc] at h2
    rw [rule4_name, if_pos h2] at h1
    exact absurd h1 (by simp [truthy])

/-- Witness for C10 at the concrete token-free input. -/
theorem C10_witness :
    parseContactDataWithLayout basicPathInput = parseContactDataBasic basicPathInput :=
  C10_basic_path_no_arbitration.1 basicPathInput rfl

/-! ## Matcher counting lemmas (for C5)

Each e-mail pattern consumes exactly one `@` in any successful match;
this is what connects the stored e-mail text to its domain part. -/

/-- Exact count of `@`-characters every match of a regex consumes. -/
inductive REAtCount : RE → Nat → Prop where
  | eps : REAtCount .eps 0
  | wb : REAtCount .wb 0
  | cls0 (f : Char → Bool) : (∀ c, f c = true → c ≠ '@') → REAtCount (.cls f) 0
  | cls1 (f : Char → Bool) : (∀ c, f c = true → c = '@') → REAtCount (.cls f) 1
  | seq {a b : RE} {m n : Nat} :
      REAtCount a m → REAtCount b n → REAtCount (.seq a b) (m + n)
  | alt {a b : RE} {n : Nat} :
      REAtCount a n → REAtCount b n → REAtCount (.alt a b) n
  | opt {a : RE} : REAtCount a 0 → REAtCount (.opt a) 0
  | star (f : Char → Bool) : (∀ c, f c = true → c ≠ '@') → REAtCount (.star f) 0

/-- A class rejecting `@` has count zero. -/
theorem cls0_of_notAt (f : Char → Bool) (hf : f '@' = false) :
    REAtCount (.cls f) 0 :=
  REAtCount.cls0 f (fun c h heq => by
    rw [heq, hf] at h
    exact Bool.noConfusion h)

/-- A starred class rejecting `@` has count zero. -/
theorem star0_of_notAt (f : Char → Bool) (hf : f '@' = false) :
    REAtCount (.star f) 0 :=
  REAtCount.star f (fun c h heq => by
    rw [heq, hf] at h
    exact Bool.noConfusion h)

/-- The literal `@` class has count one. -/
theorem cls1_at : REAtCount (.cls (fun c => c == '@')) 1 :=
  REAtCount.cls1 _ (fun c h => beq_iff_eq.mp h)

/-- Star soundness: a successful `starRun` splits the input into consumed
class characters and a rest handed to the continuation. -/
theorem starRun_count (f : Char → Bool) (hf : ∀ c, f c = true → c ≠ '@')
    (k : Str → Option Char → Str → Option MRes) :
    ∀ (s acc : Str) (p : Option Char) (res : MRes),
      starRun f k acc p s = some res →
      ∃ cs p2 rest, s = cs ++ rest ∧ cs.count '@' = 0 ∧
        k (cs.reverse ++ acc) p2 rest = some res := by
  intro s
  induction s with
  | nil =>
    intro acc p res h
    exact ⟨[], p, [], rfl, rfl, by simpa [starRun] using h⟩
  | cons c t ih =>
    intro acc p res h
    unfold starRun at h
    by_cases hfc : f c = true
    · rw [if_pos hfc] at h
      cases hin : starRun f k (c :: acc) (some c) t with
      | some r =>
        rw [hin] at h
        obtain ⟨cs, p2, rest, h1, h2, h3⟩ := ih (c :: acc) (some c) r hin
        refine ⟨c :: cs, p2, rest, by rw [h1]; rfl, ?_, ?_⟩
        · have hc : ¬(c = '@') := hf c hfc
          simp [List.count_cons, h2, hc]
        · have hrw : (c :: cs).reverse ++ acc = cs.reverse ++ (c :: acc) := by
            simp
          rw [hrw, h3]
          exact h
      | none =>
        rw [hin] at h
        exact ⟨[], p, c :: t, rfl, rfl, h⟩
    · rw [if_neg hfc] at h
      exact ⟨[], p, c :: t, rfl, rfl, h⟩

/-- Matcher soundness for the `@`-count: a successful CPS run consumes a
prefix with exactly the predicted number of `@`s before calling its
continuation. -/
theorem RE.m_count {r : RE} {n : Nat} (hr : REAtCount r n) :
    ∀ (k : Str → Option Char → Str → Option MRes) (acc : Str) (p : Option Char)
      (s : Str) (res : MRes),
      r.m k acc p s = some res →
      ∃ cs p2 rest, s = cs ++ rest ∧ cs.count '@' = n ∧
        k (cs.reverse ++ acc) p2 rest = some res := by
  induction hr with
  | eps =>
    intro k acc p s res h
    simp only [RE.m] at h
    exact ⟨[], p, s, rfl, rfl, h⟩
  | wb =>
    intro k acc p s res h
    simp only [RE.m] at h
    by_cases hb : atBoundary p s = true
    · rw [if_pos hb] at h
      exact ⟨[], p, s, rfl, rfl, h⟩
    · rw [if_neg hb] at h
      exact absurd h (by simp)
  | cls0 f hf =>
    intro k acc p s res h
    cases s with
    | nil => exact absurd h (by simp [RE.m])
    | cons c t =>
      simp only [RE.m] at h
      by_cases hfc : f c = true
      · rw [if_pos hfc] at h
        refine ⟨[c], some c, t, rfl, ?_, h⟩
        have := hf c hfc
        simp [List.count_cons, this]
      · rw [if_neg hfc] at h
        exact absurd h (by simp)
  | cls1 f hf =>
    intro k acc p s res h
    cases s with
    | nil => exact absurd h (by simp [RE.m])
    | cons c t =>
      simp only [RE.m] at h
      by_cases hfc : f c = true
      · rw [if_pos hfc] at h
        refine ⟨[c], some c, t, rfl, ?_, h⟩
        have := hf c hfc
        simp [List.count_cons, this]
      · rw [if_neg hfc] at h
        exact absurd h (by simp)
  | seq ha hb iha ihb =>
    intro k acc p s res h
    simp only [RE.m] at h
    obtain ⟨cs1, p2, rest1, hs1, hc1, hk1⟩ := iha _ _ _ _ _ h
    obtain ⟨cs2, p3, rest2, hs2, hc2, hk2⟩ := ihb _ _ _ _ _ hk1
    refine ⟨cs1 ++ cs2, p3, rest2, ?_, ?_, ?_⟩
    · rw [hs1, hs2, List.append_assoc]
    · simp [List.count_append, hc1, hc2]
    · rw [List.reverse_append, List.append_assoc]
      exact hk2
  | alt ha hb iha ihb =>
    intro k acc p s res h
    simp only [RE.m] at h
    cases hA : RE.m _ k acc p s with
    | some r =>
      rw [hA] at h
      obtain ⟨cs, p2, rest, hs, hc, hk⟩ := iha _ _ _ _ _ hA
      exact ⟨cs, p2, rest, hs, hc, by rw [hk]; exact h⟩
    | none =>
      rw [hA] at h
      exact ihb _ _ _ _ _ h
  | opt ha iha =>
    intro k acc p s res h
    simp only [RE.m] at h
    cases hA : RE.m _ k acc p s with
    | some r =>
      rw [hA] at h
      obtain ⟨cs, p2, rest, hs, hc, hk⟩ := iha _ _ _ _ _ hA
      exact ⟨cs, p2, rest, hs, hc, by rw [hk]; exact h⟩
    | none =>
      rw [hA] at h
      exact ⟨[], p, s, rfl, rfl, h⟩
  | star f hf =>
    intro k acc p s res h
    simp only [RE.m] at h
    exact starRun_count f hf k s acc p res h

/-- Every anchored match found by `matchAt` consumes the predicted number
of `@`s. -/
theorem matchAt_count {r : RE} {n : Nat} (hr : REAtCount r n)
    (p : Option Char) (s : Str) (acc2 : Str) (p2 : Option Char) (rest : Str)
    (h : matchAt r p s = some (acc2, p2, rest)) :
    acc2.reverse.count '@' = n := by
  obtain ⟨cs, p3, rest2, _, hc, hk⟩ := RE.m_count hr _ [] p s _ h
  have h4 : some (cs.reverse ++ [], p3, rest2) = some (acc2, p2, rest) := hk
  have h5 : acc2 = cs.reverse ++ [] := by
    injection h4 with h6
    exact (congrArg Prod.fst h6).symm
  simpa [h5] using hc

/-- Every match found by the leftmost search consumes the predicted
number of `@`s. -/
theorem searchFrom_count {r : RE} {n : Nat} (hr : REAtCount r n) :
    ∀ (s : Str) (p : Option Char) (m : Str) (p2 : Option Char) (rest : Str),
      searchFrom r p s = some (m, p2, rest) → m.count '@' = n := by
  intro s
  induction s with
  | nil =>
    intro p m p2 rest h
    rw [searchFrom.eq_1] at h
    cases hM : matchAt r p [] with
    | some trip =>
      obtain ⟨a2, q2, r2⟩ := trip
      simp only [hM] at h
      injection h with h1
      have hcount := matchAt_count hr p [] a2 q2 r2 hM
      have hm : m = a2.reverse := by
        have := congrArg Prod.fst h1
        exact this.symm
      rw [hm]
      exact hcount
    | none =>
      simp only [hM] at h
      exact Option.noConfusion h
  | cons c t ih =>
    intro p m p2 rest h
    rw [searchFrom.eq_2] at h
    cases hM : matchAt r p (c :: t) with
    | some trip =>
      obtain ⟨a2, q2, r2⟩ := trip
      simp only [hM] at h
      injection h with h1
      have hcount := matchAt_count hr p (c :: t) a2 q2 r2 hM
      have hm : m = a2.reverse := by
        have := congrArg Prod.fst h1
        exact this.symm
      rw [hm]
      exact hcount
    | none =>
      simp only [hM] at h
      exact ih (some c) m p2 rest h

/-- Every match produced by the global exec loop consumes the predicted
number of `@`s. -/
theorem execAllAux_count {r : RE} {n : Nat} (hr : REAtCount r n) :
    ∀ (fuel : Nat) (p : Option Char) (s : Str) (m : Str),
      m ∈ execAllAux r fuel p s → m.count '@' = n := by
  intro fuel
  induction fuel with
  | zero =>
    intro p s m h
    simp [execAllAux] at h
  | succ fu ih =>
    intro p s m h
    cases s with
    | nil =>
      simp only [execAllAux] at h
      cases hS : searchFrom r none [] with
      | some trip =>
        obtain ⟨m2, q2, r2⟩ := trip
        simp only [hS] at h
        by_cases he : m2.isEmpty
        · rw [if_pos he] at h
          exact absurd h (by simp)
        · rw [if_neg he] at h
          rcases List.mem_singleton.mp h with rfl
          exact searchFrom_count hr [] none _ _ _ hS
      | none =>
        simp only [hS] at h
        exact absurd h (by simp)
    | cons c t =>
      simp only [execAllAux] at h
      cases hS : searchFrom r p (c :: t) with
      | some trip =>
        obtain ⟨m2, q2, r2⟩ := trip
        simp only [hS] at h
        by_cases he : m2.isEmpty
        · rw [if_pos he] at h
          exact absurd h (by simp)
        · rw [if_neg he] at h
          rcases List.mem_cons.mp h with rfl | hmem
          · exact searchFrom_count hr (c :: t) p _ _ _ hS
          · exact ih q2 r2 m hmem
      | none =>
        simp only [hS] at h
        exact absurd h (by simp)

/-- Every match of `execAll` consumes the predicted number of `@`s. -/
theorem execAll_count {r : RE} {n : Nat} (hr : REAtCount r n) (s m : Str)
    (h : m ∈ execAll r s) : m.count '@' = n :=
  execAllAux_count hr (s.length + 1) none s m h

/-! ## Stable-sort and layout-partition lemmas (for C9) -/

/-- Membership through `insertCmp`. -/
theorem mem_insertCmp {α : Type} (cmp : α → α → Int) (x a : α) :
    ∀ l, a ∈ insertCmp cmp x l ↔ a = x ∨ a ∈ l := by
  intro l
  induction l with
  | nil => simp [insertCmp]
  | cons y t ih =>
    unfold insertCmp
    by_cases hc : cmp y x ≤ 0
    · rw [if_pos hc]
      simp [ih]
      try tauto
    · rw [if_neg hc]
      simp
      try tauto

/-- Inserting into a size-descending list keeps it size-descending. -/
theorem insertCmp_size_sorted (x : SizeEntry) :
    ∀ l, l.Pairwise (fun a b => b.size ≤ a.size) →
      (insertCmp sizeCmp x l).Pairwise (fun a b => b.size ≤ a.size) := by
  intro l
  induction l with
  | nil =>
    intro _
    simp [insertCmp]
  | cons y t ih =>
    intro hp
    rw [List.pairwise_cons] at hp
    obtain ⟨hy, ht⟩ := hp
    unfold insertCmp
    by_cases hc : sizeCmp y x ≤ 0
    · rw [if_pos hc]
      rw [List.pairwise_cons]
      refine ⟨?_, ih ht⟩
      intro a ha
      rw [mem_insertCmp] at ha
      rcases ha with rfl | ha
      · unfold sizeCmp at hc
        omega
      · exact hy a ha
    · rw [if_neg hc]
      rw [List.pairwise_cons]
      refine ⟨?_, List.pairwise_cons.mpr ⟨hy, ht⟩⟩
      intro a ha
      rcases List.mem_cons.mp ha with rfl | ha
      · unfold sizeCmp at hc
        omega
      · have := hy a ha
        unfold sizeCmp at hc
        omega

/-- Stability of one insertion: on a sorted list, the new element lands
after every earlier element of equal size, so filtering by any size value
appends it at the end. -/
theorem insertCmp_size_filter (x : SizeEntry) (s : Int) :
    ∀ l, l.Pairwise (fun a b => b.size ≤ a.size) →
      (insertCmp sizeCmp x l).filter (fun e => e.size == s) =
        l.filter (fun e => e.size == s) ++ (if x.size == s then [x] else []) := by
  intro l
  induction l with
  | nil =>
    intro _
    simp only [insertCmp, List.filter_nil, List.nil_append]
    cases hx : x.size == s <;> simp [List.filter_cons, hx]
  | cons y t ih =>
    intro hp
    rw [List.pairwise_cons] at hp
    obtain ⟨hy, ht⟩ := hp
    unfold insertCmp
    by_cases hc : sizeCmp y x ≤ 0
    · rw [if_pos hc]
      rw [List.filter_cons, List.filter_cons, ih ht]
      cases hys : y.size == s <;> simp [hys]
    · rw [if_neg hc]
      rw [List.filter_cons]
      cases hx : x.size == s
      · simp only [Bool.false_eq_true, if_false, List.append_nil]
      · have hlt : y.size < x.size := by
          unfold sizeCmp at hc
          omega
        have hxs : x.size = s := by
          exact beq_iff_eq.mp hx
        have hnil : (y :: t).filter (fun e => e.size == s) = [] := by
          rw [List.filter_eq_nil_iff]
          intro a ha
          rcases List.mem_cons.mp ha with rfl | ha
          · simp
            omega
          · have := hy a ha
            simp
            omega
        rw [hnil]
        simp [hx]

/-- Invariant of the insertion fold: sortedness plus per-size stability. -/
theorem foldl_insert_size (l : List SizeEntry) :
    ∀ acc, acc.Pairwise (fun a b => b.size ≤ a.size) →
      (l.foldl (fun a x => insertCmp sizeCmp x a) acc).Pairwise
        (fun a b => b.size ≤ a.size) ∧
      ∀ s, (l.foldl (fun a x => insertCmp sizeCmp x a) acc).filter
          (fun e => e.size == s) =
        acc.filter (fun e => e.size == s) ++ l.filter (fun e => e.size == s) := by
  induction l with
  | nil =>
    intro acc h
    exact ⟨h, fun s => by simp⟩
  | cons x t ih =>
    intro acc h
    have hs := insertCmp_size_sorted x acc h
    obtain ⟨ih1, ih2⟩ := ih (insertCmp sizeCmp x acc) hs
    refine ⟨ih1, fun s => ?_⟩
    rw [List.foldl_cons, ih2 s, insertCmp_size_filter x s acc h, List.filter_cons]
    cases hx : x.size == s <;> simp [List.append_assoc]

/-- The sorted size ranking is descending. -/
theorem jsSortBy_size_sorted (l : List SizeEntry) :
    (jsSortBy sizeCmp l).Pairwise (fun a b => b.size ≤ a.size) :=
  (foldl_insert_size l [] (by simp)).1

/-- The sorted size ranking is stable: restricting to any one size value
returns the entries in their original order. -/
theorem jsSortBy_size_filter (l : List SizeEntry) (s : Int) :
    (jsSortBy sizeCmp l).filter (fun e => e.size == s) =
      l.filter (fun e => e.size == s) := by
  have h := (foldl_insert_size l [] (by simp)).2 s
  simpa [jsSortBy] using h

/-- Characterization of the `forEach` accumulation: each produced list is
the classified filter of the word list, in traversal order. -/
theorem wordEntries_char (tt bt : ℚ) (ws : List OCRWord) :
    (wordEntries tt bt ws).top =
      (ws.filter (fun w => nonblankWord w &&
        (classifyWord tt bt w == Band.top))).map mkLayoutLine ∧
    (wordEntries tt bt ws).middle =
      (ws.filter (fun w => nonblankWord w &&
        (classifyWord tt bt w == Band.middle))).map mkLayoutLine ∧
    (wordEntries tt bt ws).bottom =
      (ws.filter (fun w => nonblankWord w &&
        (classifyWord tt bt w == Band.bottom))).map mkLayoutLine ∧
    (wordEntries tt bt ws).sizes = (ws.filter nonblankWord).map mkSizeEntry := by
  induction ws with
  | nil => exact ⟨rfl, rfl, rfl, rfl⟩
  | cons w t ih =>
    obtain ⟨ih1, ih2, ih3, ih4⟩ := ih
    by_cases hnb : nonblankWord w = true
    · cases hcl : classifyWord tt bt w <;>
        simp [wordEntries, hnb, hcl, ih1, ih2, ih3, ih4, List.filter_cons]
    · simp only [Bool.not_eq_true] at hnb
      simp [wordEntries, hnb, ih1, ih2, ih3, ih4, List.filter_cons]

/-- The three band filters count every non-blank word exactly once. -/
theorem band_count (tt bt : ℚ) (ws : List OCRWord) :
    (ws.filter (fun w => nonblankWord w &&
      (classifyWord tt bt w == Band.top))).length +
    (ws.filter (fun w => nonblankWord w &&
      (classifyWord tt bt w == Band.middle))).length +
    (ws.filter (fun w => nonblankWord w &&
      (classifyWord tt bt w == Band.bottom))).length =
    (ws.filter nonblankWord).length := by
  induction ws with
  | nil => rfl
  | cons w t ih =>
    by_cases hnb : nonblankWord w = true
    · cases hcl : classifyWord tt bt w <;>
        simp [List.filter_cons, hnb, hcl,
          show (Band.top == Band.middle) = false from by decide,
          show (Band.top == Band.bottom) = false from by decide,
          show (Band.middle == Band.top) = false from by decide,
          show (Band.middle == Band.bottom) = false from by decide,
          show (Band.bottom == Band.top) = false from by decide,
          show (Band.bottom == Band.middle) = false from by decide] <;>
        omega
    · simp only [Bool.not_eq_true] at hnb
      simp [List.filter_cons, hnb]
      omega

/-! ## Claim C3 -/

/-- Counterexample to claim C3 as stated: on this recognition result the
layout path emits a record whose name and company are both set and
case-insensitively identical — rule 3 reassigned a title equal to the
name into the empty company slot after rule 2 had already run. -/
theorem C3_counterexample :
    layoutPathInput.words ≠ [] ∧
    (parseContactDataWithLayout layoutPathInput).name =
      some (("Hrdivisioninc Lead").data) ∧
    (parseContactDataWithLayout layoutPathInput).company =
      some (("HRDIVISIONINC Lead").data) ∧
    lower (("Hrdivisioninc Lead").data) = lower (("HRDIVISIONINC Lead").data) := by
  exact ⟨by decide, by decide, by decide, by decide⟩

/-- Claim C3 amended: whenever the arbiter's rule 3 cannot fire — the
record entering arbitration has no title carrying a business-entity
keyword — a record leaving arbitration with both name and company set has
them case-insensitively distinct.  (When rule 3 fires it can copy a title
matching the name into company, as the counterexample shows.) -/
theorem C3_amended_name_company_distinct (cd : ContactData)
    (ht : (truthy cd.title &&
      (RULE3_BUSINESS_KEYWORDS.any fun k =>
        containsSub (lower (cd.title.getD [])) k)) = false)
    (hn : truthy (validateAndCleanFields cd).name = true)
    (hc : truthy (validateAndCleanFields cd).company = true) :
    lower ((validateAndCleanFields cd).name.getD []) ≠
      lower ((validateAndCleanFields cd).company.getD []) := by
  have htitle : (rule2 (rule1 cd)).title = cd.title := by
    rw [rule2_title, (rule1_company cd).2.2]
  have h3 : rule3 (rule2 (rule1 cd)) = rule2 (rule1 cd) := by
    by_cases h1 : truthy (rule2 (rule1 cd)).title = true
    · have hkw : (RULE3_BUSINESS_KEYWORDS.any fun k =>
          containsSub (lower ((rule2 (rule1 cd)).title.getD [])) k) = false := by
        rw [htitle]
        rw [htitle] at h1
        rw [h1] at ht
        simpa using ht
      simp only [rule3, h1, if_true, hkw]
      simp
    · simp only [rule3]
      rw [if_neg h1]
  unfold validateAndCleanFields at hn hc ⊢
  rw [h3] at hn hc ⊢
  rw [rule4_name] at hn
  rw [rule4_company] at hc
  rw [rule4_name, rule4_company]
  by_cases hlt : confLt (rule2 (rule1 cd)).fieldConfidences.name 50 = true
  · rw [if_pos hlt] at hn
    exact absurd hn (by simp [truthy])
  · rw [if_neg hlt] at hn ⊢
    by_cases hltc : confLt (rule2 (rule1 cd)).fieldConfidences.company 50 = true
    · rw [if_pos hltc] at hc
      exact absurd hc (by simp [truthy])
    · rw [if_neg hltc] at hc ⊢
      by_cases hg : (truthy (rule1 cd).name && truthy (rule1 cd).company &&
          (lower ((rule1 cd).name.getD []) == lower ((rule1 cd).company.getD []))) = true
      · have hfired : (rule2 (rule1 cd)).company = none := by
          simp only [rule2]
          rw [if_pos hg]
        rw [hfired] at hc
        exact absurd hc (by simp [truthy])
      · have hsame : rule2 (rule1 cd) = rule1 cd := by
          simp only [rule2]
          rw [if_neg hg]
        rw [hsame] at hn hc ⊢
        intro heq
        apply hg
        rw [hn, hc]
        simp only [Bool.true_and]
        exact beq_iff_eq.mpr heq

/-- Witness for C3's amended claim at a record with distinct name and
company and an empty title. -/
theorem C3_witness :
    lower ((validateAndCleanFields distinctFieldsRecord).name.getD []) ≠
      lower ((validateAndCleanFields distinctFieldsRecord).company.getD []) :=
  C3_amended_name_company_distinct distinctFieldsRecord (by decide) (by decide) (by decide)

/-! ## Claim C9 -/

/-- Counterexample to claim C9 as stated: a token whose text is a single
space is assigned to none of the three regions (and to no prominence
rank) — the loop skips blank-trimmed tokens, so the bands do not cover
the full token set. -/
theorem C9_counterexample :
    blankTokenInput.words.length = 1 ∧
    (analyzeCardLayout blankTokenInput).toOption =
      some
        { topLines := [], middleLines := [], bottomLines := [], largestText := []
          allLines := [], cardHeight := 10, cardWidth := 10 } := by
  exact ⟨by decide, by decide⟩

/-- Claim C9 amended: for a non-empty token list, every token with
non-blank trimmed text lands in exactly one band — each band list is
precisely the classified filter of the token list — blank tokens land in
none, and the prominence list is the non-blank tokens ordered by glyph
height descending with ties in original order (sorted, and filtering by
any fixed size preserves the original sequence). -/
theorem C9_amended_layout_partition_stable (r : OCRResult) (h : r.words ≠ []) :
    ∃ (w0 : OCRWord) (rest : List OCRWord) (L : LayoutAnalysis),
      r.words = w0 :: rest ∧
      analyzeCardLayout r = .ok L ∧
      L.topLines =
        (r.words.filter (fun w => nonblankWord w &&
          (classifyWord (topThirdOf w0 rest) (bottomThirdOf w0 rest) w ==
            Band.top))).map mkLayoutLine ∧
      L.middleLines =
        (r.words.filter (fun w => nonblankWord w &&
          (classifyWord (topThirdOf w0 rest) (bottomThirdOf w0 rest) w ==
            Band.middle))).map mkLayoutLine ∧
      L.bottomLines =
        (r.words.filter (fun w => nonblankWord w &&
          (classifyWord (topThirdOf w0 rest) (bottomThirdOf w0 rest) w ==
            Band.bottom))).map mkLayoutLine ∧
      L.topLines.length + L.middleLines.length + L.bottomLines.length =
        (r.words.filter nonblankWord).length ∧
      L.largestText.Pairwise (fun a b => b.size ≤ a.size) ∧
      (∀ s : Int, L.largestText.filter (fun e => e.size == s) =
        ((r.words.filter nonblankWord).map mkSizeEntry).filter
          (fun e => e.size == s)) := by
  obtain ⟨w0, rest, hw⟩ : ∃ w0 rest, r.words = w0 :: rest := by
    cases hv : r.words with
    | nil => exact absurd hv h
    | cons a b => exact ⟨a, b, rfl⟩
  have hA : analyzeCardLayout r = .ok
      { topLines := (wordEntries (topThirdOf w0 rest) (bottomThirdOf w0 rest)
          (w0 :: rest)).top
        middleLines := (wordEntries (topThirdOf w0 rest) (bottomThirdOf w0 rest)
          (w0 :: rest)).middle
        bottomLines := (wordEntries (topThirdOf w0 rest) (bottomThirdOf w0 rest)
          (w0 :: rest)).bottom
        largestText := jsSortBy sizeCmp
          ((wordEntries (topThirdOf w0 rest) (bottomThirdOf w0 rest)
            (w0 :: rest)).sizes)
        allLines := (wordEntries (topThirdOf w0 rest) (bottomThirdOf w0 rest)
          (w0 :: rest)).all
        cardHeight := cardMaxY w0 rest - cardMinY w0 rest
        cardWidth := intMax w0.bbox.x1 (rest.map (fun w => w.bbox.x1)) -
          intMin w0.bbox.x0 (rest.map (fun w => w.bbox.x0)) } := by
    unfold analyzeCardLayout
    rw [hw]
  obtain ⟨hc1, hc2, hc3, hc4⟩ :=
    wordEntries_char (topThirdOf w0 rest) (bottomThirdOf w0 rest) (w0 :: rest)
  refine ⟨w0, rest, _, hw, hA, ?_, ?_, ?_, ?_, ?_, ?_⟩
  · rw [hw]
    exact hc1
  · rw [hw]
    exact hc2
  · rw [hw]
    exact hc3
  · rw [hw]
    simp only [hc1, hc2, hc3, List.length_map]
    exact band_count _ _ _
  · exact jsSortBy_size_sorted _
  · intro s
    rw [hw]
    simp only [hc4]
    exact jsSortBy_size_filter _ s

/-- Witness for C9's amended claim at the concrete blank-token input
(whose band lists and ranking are all empty). -/
theorem C9_witness :
    ∃ (w0 : OCRWord) (rest : List OCRWord) (L : LayoutAnalysis),
      blankTokenInput.words = w0 :: rest ∧
      analyzeCardLayout blankTokenInput = .ok L ∧
      L.topLines =
        (blankTokenInput.words.filter (fun w => nonblankWord w &&
          (classifyWord (topThirdOf w0 rest) (bottomThirdOf w0 rest) w ==
            Band.top))).map mkLayoutLine ∧
      L.middleLines =
        (blankTokenInput.words.filter (fun w => nonblankWord w &&
          (classifyWord (topThirdOf w0 rest) (bottomThirdOf w0 rest) w ==
            Band.middle))).map mkLayoutLine ∧
      L.bottomLines =
        (blankTokenInput.words.filter (fun w => nonblankWord w &&
          (classifyWord (topThirdOf w0 rest) (bottomThirdOf w0 rest) w ==
            Band.bottom))).map mkLayoutLine ∧
      L.topLines.length + L.middleLines.length + L.bottomLines.length =
        (blankTokenInput.words.filter nonblankWord).length ∧
      L.largestText.Pairwise (fun a b => b.size ≤ a.size) ∧
      (∀ s : Int, L.largestText.filter (fun e => e.size == s) =
        ((blankTokenInput.words.filter nonblankWord).map mkSizeEntry).filter
          (fun e => e.size == s)) :=
  C9_amended_layout_partition_stable blankTokenInput (by decide)

/-! ## Claim C7 -/

/-- Counterexample to claim C7 as stated: "john@gmail.com" has a valid
top-level domain, yet the code scores it 95 at base confidence 95 where
the claimed +10 domain bonus would give 100 — no bonus is applied on an
allow-list match (the +10 in the code is the separate business-email
bonus). -/
theorem C7_counterexample :
    EmailParser.emailHasValidTLD (("john@gmail.com").data) = true ∧
    (EmailParser.validateAndScore (("john@gmail.com").data) 95 false).confidence = 95 ∧
    (EmailParser.validateAndScoreClaimed (("john@gmail.com").data) 95 false).confidence = 100 := by
  exact ⟨by decide, by decide, by decide⟩

/-- Claim C7 amended: for a format-valid candidate with positive base
confidence, an allow-list domain match leaves the confidence unchanged
while a mismatch subtracts 15; the OCR-correction penalty and the
business-email bonus apply independently, and the result is clamped to
the 0–100 range. -/
theorem C7_amended_domain_scoring (e : Str) (b : Int) (h : Bool)
    (hf : EmailParser.emailFormatValid e = true) (hb : 0 < b) :
    (EmailParser.validateAndScore e b h).confidence =
      EmailParser.clamp100
        (b + (if EmailParser.emailHasValidTLD e then 0 else -15) +
          (if h then -10 else 0) +
          (if EmailParser.emailIsPrimary e && !EmailParser.emailIsPersonal e
            then 10 else 0)) := by
  have hd : decide (0 < b) = true := decide_eq_true hb
  simp only [EmailParser.validateAndScore]
  rw [if_pos hf]
  cases htld : EmailParser.emailHasValidTLD e <;>
    cases hbiz : (EmailParser.emailIsPrimary e && !EmailParser.emailIsPersonal e) <;>
      cases h
  all_goals
    simp only [htld, hbiz, hd, Bool.not_true, Bool.not_false, Bool.true_and,
      Bool.false_and]
  all_goals simp
  all_goals congr 1

/-- Witness for C7's amended claim on the concrete personal address. -/
theorem C7_witness :
    (EmailParser.validateAndScore (("john@gmail.com").data) 95 false).confidence =
      EmailParser.clamp100
        (95 + (if EmailParser.emailHasValidTLD (("john@gmail.com").data) then 0 else -15) +
          (if false then -10 else 0) +
          (if EmailParser.emailIsPrimary (("john@gmail.com").data) &&
              !EmailParser.emailIsPersonal (("john@gmail.com").data)
            then 10 else 0)) :=
  C7_amended_domain_scoring (("john@gmail.com").data) 95 false (by decide) (by decide)

/-! ## Claim C5: every extracted e-mail has exactly one `@`, and the
website is always derived from the text after it -/

/-- The standard e-mail pattern consumes exactly one `@`. -/
theorem standardRE_count : REAtCount EmailParser.standardRE 1 := by
  unfold EmailParser.standardRE seqAll
  simp only [List.foldr]
  exact REAtCount.seq (cls0_of_notAt _ (by decide))
    (REAtCount.seq
      (REAtCount.opt (REAtCount.seq (star0_of_notAt _ (by decide))
        (cls0_of_notAt _ (by decide))))
      (REAtCount.seq cls1_at
        (REAtCount.seq (cls0_of_notAt _ (by decide))
          (REAtCount.seq
            (REAtCount.opt (REAtCount.seq (star0_of_notAt _ (by decide))
              (cls0_of_notAt _ (by decide))))
            (REAtCount.seq (cls0_of_notAt _ (by decide))
              (REAtCount.seq (cls0_of_notAt _ (by decide))
                (REAtCount.seq (cls0_of_notAt _ (by decide))
                  (REAtCount.seq (star0_of_notAt _ (by decide))
                    (REAtCount.seq
                      (REAtCount.opt
                        (REAtCount.seq (cls0_of_notAt _ (by decide))
                          (REAtCount.seq (cls0_of_notAt _ (by decide))
                            (REAtCount.seq (cls0_of_notAt _ (by decide))
                              (REAtCount.seq
                                (REAtCount.opt (cls0_of_notAt _ (by decide)))
                                REAtCount.eps)))))
                      REAtCount.eps)))))))))

/-- The OCR-corrected e-mail pattern consumes exactly one `@`. -/
theorem ocrCorrectedRE_count : REAtCount EmailParser.ocrCorrectedRE 1 := by
  unfold EmailParser.ocrCorrectedRE seqAll
  simp only [List.foldr]
  exact REAtCount.seq (cls0_of_notAt _ (by decide))
    (REAtCount.seq
      (REAtCount.opt (REAtCount.seq (star0_of_notAt _ (by decide))
        (cls0_of_notAt _ (by decide))))
      (REAtCount.seq cls1_at
        (REAtCount.seq (cls0_of_notAt _ (by decide))
          (REAtCount.seq
            (REAtCount.opt (REAtCount.seq (star0_of_notAt _ (by decide))
              (cls0_of_notAt _ (by decide))))
            (REAtCount.seq (cls0_of_notAt _ (by decide))
              (REAtCount.seq (cls0_of_notAt _ (by decide))
                (REAtCount.seq (cls0_of_notAt _ (by decide))
                  (REAtCount.seq
                    (REAtCount.opt (cls0_of_notAt _ (by decide)))
                    (REAtCount.seq REAtCount.wb REAtCount.eps)))))))))

/-- Lowercasing moves no character onto or off `@`. -/
theorem toLowerC_at (c : Char) : (toLowerC c == '@') = (c == '@') := by
  unfold toLowerC
  by_cases h : (65 ≤ c.toNat && c.toNat ≤ 90) = true
  · rw [if_pos h]
    rw [Bool.and_eq_true] at h
    have h1' : 65 ≤ c.toNat := of_decide_eq_true h.1
    have h2' : c.toNat ≤ 90 := of_decide_eq_true h.2
    have hv : (Char.ofNat (c.toNat + 32)).toNat = c.toNat + 32 := by
      unfold Char.ofNat
      rw [dif_pos (Or.inl (by omega))]
      rfl
    have h64 : Char.toNat '@' = 64 := rfl
    have hne : ((Char.ofNat (c.toNat + 32)) == '@') = false := by
      refine beq_eq_false_iff_ne.mpr ?_
      intro he
      have h3 := congrArg Char.toNat he
      rw [hv, h64] at h3
      omega
    have hne2 : (c == '@') = false := by
      refine beq_eq_false_iff_ne.mpr ?_
      intro he
      have h3 := congrArg Char.toNat he
      rw [h64] at h3
      omega
    rw [hne, hne2]
  · rw [if_neg h]

/-- `toLowerCase` preserves the number of `@`s. -/
theorem lower_count (s : Str) : List.count '@' (lower s) = List.count '@' s := by
  induction s with
  | nil => rfl
  | cons c t ih =>
    simp only [lower, List.map_cons, List.count_cons] at ih ⊢
    rw [ih, toLowerC_at]

/-- Dropping a prefix of non-`@` characters preserves the `@` count. -/
theorem dropWhile_count_at (p : Char → Bool) (hp : p '@' = false) :
    ∀ s : Str, List.count '@' (s.dropWhile p) = List.count '@' s := by
  intro s
  induction s with
  | nil => rfl
  | cons c t ih =>
    by_cases h : p c = true
    · rw [List.dropWhile_cons_of_pos h, ih, List.count_cons]
      have hc : (c == '@') = false := by
        refine beq_eq_false_iff_ne.mpr ?_
        intro he
        rw [he, hp] at h
        exact Bool.noConfusion h
      rw [hc]
      simp
    · rw [List.dropWhile_cons_of_neg h]

/-- `trim` preserves the number of `@`s. -/
theorem trim_count (s : Str) : List.count '@' (trim s) = List.count '@' s := by
  unfold trim
  rw [List.count_reverse, dropWhile_count_at isWsC (by decide),
    List.count_reverse, dropWhile_count_at isWsC (by decide)]

/-- `split` never returns the empty list. -/
theorem jsSplit_ne_nil (sep : Char) (s : Str) : jsSplit sep s ≠ [] := by
  cases s with
  | nil => simp [jsSplit]
  | cons c t =>
    simp only [jsSplit]
    by_cases h : (c == sep) = true
    · rw [if_pos h]
      simp
    · rw [if_neg h]
      cases h2 : jsSplit sep t with
      | nil => simp only [h2]; simp
      | cons a r => simp only [h2]; simp

/-- A separator-free string splits into itself. -/
theorem jsSplit_count_zero (sep : Char) :
    ∀ s : Str, List.count sep s = 0 → jsSplit sep s = [s] := by
  intro s
  induction s with
  | nil => intro _; rfl
  | cons c t ih =>
    intro h
    rw [List.count_cons] at h
    by_cases hc : (c == sep) = true
    · rw [if_pos hc] at h
      omega
    · rw [if_neg hc] at h
      simp only [Nat.add_zero] at h
      simp only [jsSplit, hc, ih h]
      rfl

/-- On a string with exactly one `@`, the second `split` segment is the
text after the `@`. -/
theorem jsSplit_getD_one (d : Str) :
    ∀ s : Str, List.count '@' s = 1 → (jsSplit '@' s).getD 1 d = domainPart s := by
  intro s
  induction s with
  | nil => intro h; exact absurd h (by simp)
  | cons c t ih =>
    intro h
    rw [List.count_cons] at h
    by_cases hc : (c == '@') = true
    · rw [if_pos hc] at h
      have ht : List.count '@' t = 0 := by omega
      have hcc : c = '@' := beq_iff_eq.mp hc
      subst hcc
      simp only [jsSplit, beq_self_eq_true, if_true, jsSplit_count_zero _ t ht]
      unfold domainPart
      rw [List.dropWhile_cons_of_neg (by simp)]
      rfl
    · rw [if_neg hc] at h
      simp only [Nat.add_zero] at h
      have hne := jsSplit_ne_nil '@' t
      cases h2 : jsSplit '@' t with
      | nil => exact absurd h2 hne
      | cons a r =>
        simp only [jsSplit, hc, h2]
        have := ih h
        rw [h2] at this
        unfold domainPart
        rw [List.dropWhile_cons_of_pos (by simp [hc])]
        exact this

/-- For an e-mail with exactly one `@`, the derived website is `www.`
followed by the domain part. -/
theorem deriveWebsite_eq (e : Str) (h : List.count '@' e = 1) :
    EmailParser.deriveWebsite e = ("www.").data ++ domainPart e := by
  unfold EmailParser.deriveWebsite
  rw [jsSplit_getD_one _ e h]

/-- Folding insertions only permutes: members come from the accumulator
or the input. -/
theorem mem_foldl_insertCmp {α : Type} (cmp : α → α → Int) (a : α) :
    ∀ (l acc : List α), a ∈ l.foldl (fun acc x => insertCmp cmp x acc) acc →
      a ∈ acc ∨ a ∈ l := by
  intro l
  induction l with
  | nil => intro acc h; exact Or.inl h
  | cons x t ih =>
    intro acc h
    simp only [List.foldl_cons] at h
    rcases ih (insertCmp cmp x acc) h with h2 | h2
    · rcases (mem_insertCmp cmp x a _).mp h2 with rfl | h3
      · exact Or.inr (List.mem_cons_self _ _)
      · exact Or.inl h3
    · exact Or.inr (List.mem_cons_of_mem _ h2)

/-- Sorting only permutes: every member of the output was in the input. -/
theorem mem_jsSortBy {α : Type} (cmp : α → α → Int) (a : α) (l : List α)
    (h : a ∈ jsSortBy cmp l) : a ∈ l := by
  unfold jsSortBy at h
  rcases mem_foldl_insertCmp cmp a l [] h with h2 | h2
  · exact absurd h2 (by simp)
  · exact h2

/-- The e-mail stored by `validateAndScore` is its argument. -/
theorem validateAndScore_email (e : Str) (c : Int) (h : Bool) :
    (EmailParser.validateAndScore e c h).email = e := rfl

/-- Every e-mail collected by the per-pattern exec loop keeps exactly one
`@` when every match and every accumulated result has exactly one. -/
theorem collectEmails_count (conf : Int) (had : Bool) :
    ∀ (ms : List Str) (acc : List Str × List EmailParser.EmailParseResult),
      (∀ m ∈ ms, List.count '@' (trim (lower m)) = 1) →
      (∀ r ∈ acc.2, List.count '@' r.email = 1) →
      ∀ r ∈ (EmailParser.collectEmails conf had ms acc).2,
        List.count '@' r.email = 1 := by
  intro ms
  induction ms with
  | nil =>
    intro acc _ hacc r hr
    exact hacc r hr
  | cons m ms ih =>
    intro acc hms hacc r hr
    obtain ⟨processed, results⟩ := acc
    simp only [EmailParser.collectEmails] at hr
    have hmsTail : ∀ m2 ∈ ms, List.count '@' (trim (lower m2)) = 1 :=
      fun m2 hm2 => hms m2 (List.mem_cons_of_mem _ hm2)
    by_cases h1 : (processed.contains (trim (lower m))) = true
    · rw [if_pos h1] at hr
      exact ih (processed, results) hmsTail hacc r hr
    · rw [if_neg h1] at hr
      by_cases h2 :
          (EmailParser.validateAndScore (trim (lower m)) conf had).isValid = true
      · rw [if_pos h2] at hr
        refine ih _ hmsTail ?_ r hr
        intro r2 hr2
        rcases List.mem_append.mp hr2 with h3 | h3
        · exact hacc r2 h3
        · rcases List.mem_singleton.mp h3 with rfl
          rw [validateAndScore_email]
          exact hms m (List.mem_cons_self _ _)
      · rw [if_neg h2] at hr
        exact ih (trim (lower m) :: processed, results) hmsTail hacc r hr

/-- Every result of `extractEmails` carries exactly one `@`. -/
theorem extractEmails_count (text : Str) :
    ∀ r ∈ EmailParser.extractEmails text, List.count '@' r.email = 1 := by
  intro r hr
  simp only [EmailParser.extractEmails, EmailParser.EMAIL_PATTERNS, List.foldl] at hr
  have h2 := mem_jsSortBy _ _ _ hr
  refine collectEmails_count 80 _ _ _ ?_ ?_ r h2
  · intro m hm
    rw [trim_count, lower_count]
    exact execAll_count ocrCorrectedRE_count _ _ hm
  · intro s hs
    refine collectEmails_count 95 _ _ _ ?_ ?_ s hs
    · intro m hm
      rw [trim_count, lower_count]
      exact execAll_count standardRE_count _ _ hm
    · intro u hu
      exact absurd hu (by simp)

/-- `getPrimaryEmail` returns a member of its argument. -/
theorem getPrimaryEmail_mem (results : List EmailParser.EmailParseResult)
    (p : EmailParser.EmailParseResult)
    (h : EmailParser.getPrimaryEmail results = some p) : p ∈ results := by
  unfold EmailParser.getPrimaryEmail at h
  cases hf : results.find? (fun r => r.isPrimary) with
  | some q =>
    rw [hf] at h
    injection h with h1
    rw [← h1]
    exact List.mem_of_find?_eq_some hf
  | none =>
    rw [hf] at h
    cases results with
    | nil => exact absurd h (by simp)
    | cons a t =>
      have ha : a = p := by simpa using h
      rw [← ha]
      exact List.mem_cons_self a t

/-- Name-and-company detection never touches the e-mail field. -/
theorem detectNameAndCompany_email (cd : ContactData) :
    (detectNameAndCompany cd).email = cd.email := by
  simp only [detectNameAndCompany]
  repeat' split
  all_goals rfl

/-- Name-and-company detection never touches the website field. -/
theorem detectNameAndCompany_website (cd : ContactData) :
    (detectNameAndCompany cd).website = cd.website := by
  simp only [detectNameAndCompany]
  repeat' split
  all_goals rfl

/-- Title-candidate selection never touches the e-mail field. -/
theorem selectBestTitleCandidate_email (cd : ContactData)
    (candidates : List FieldCandidate) :
    (selectBestTitleCandidate cd candidates).email = cd.email := by
  simp only [selectBestTitleCandidate]
  repeat' split
  all_goals rfl

/-- Title-candidate selection never touches the website field. -/
theorem selectBestTitleCandidate_website (cd : ContactData)
    (candidates : List FieldCandidate) :
    (selectBestTitleCandidate cd candidates).website = cd.website := by
  simp only [selectBestTitleCandidate]
  repeat' split
  all_goals rfl

/-- Structured field detection never touches the e-mail field. -/
theorem detectFieldsWithStructure_email (cd : ContactData)
    (layout : LayoutAnalysis) (lines : List Str) :
    (detectFieldsWithStructure cd layout lines).email = cd.email := by
  simp only [detectFieldsWithStructure]
  repeat' split
  all_goals
    simp [selectBestTitleCandidate_email, detectNameAndCompany_email]

/-- Structured field detection never touches the website field. -/
theorem detectFieldsWithStructure_website (cd : ContactData)
    (layout : LayoutAnalysis) (lines : List Str) :
    (detectFieldsWithStructure cd layout lines).website = cd.website := by
  simp only [detectFieldsWithStructure]
  repeat' split
  all_goals
    simp [selectBestTitleCandidate_website, detectNameAndCompany_website]

/-- Arbitration rule 1 never touches e-mail or website. -/
theorem rule1_ew (cd : ContactData) :
    (rule1 cd).email = cd.email ∧ (rule1 cd).website = cd.website := by
  simp only [rule1]
  split_ifs <;> exact ⟨rfl, rfl⟩

/-- Arbitration rule 2 never touches e-mail or website. -/
theorem rule2_ew (cd : ContactData) :
    (rule2 cd).email = cd.email ∧ (rule2 cd).website = cd.website := by
  simp only [rule2]
  split_ifs <;> exact ⟨rfl, rfl⟩

/-- Arbitration rule 3 never touches e-mail or website. -/
theorem rule3_ew (cd : ContactData) :
    (rule3 cd).email = cd.email ∧ (rule3 cd).website = cd.website := by
  simp only [rule3]
  split_ifs <;> exact ⟨rfl, rfl⟩

/-- Arbitration rule 4 never touches e-mail or website. -/
theorem rule4_ew (cd : ContactData) :
    (rule4 cd).email = cd.email ∧ (rule4 cd).website = cd.website := by
  simp only [rule4]
  split_ifs <;> exact ⟨rfl, rfl⟩

/-- The Confidence Arbiter never touches e-mail or website. -/
theorem validateAndCleanFields_ew (cd : ContactData) :
    (validateAndCleanFields cd).email = cd.email ∧
    (validateAndCleanFields cd).website = cd.website := by
  unfold validateAndCleanFields
  have h1 := rule1_ew cd
  have h2 := rule2_ew (rule1 cd)
  have h3 := rule3_ew (rule2 (rule1 cd))
  have h4 := rule4_ew (rule3 (rule2 (rule1 cd)))
  exact ⟨by rw [h4.1, h3.1, h2.1, h1.1], by rw [h4.2, h3.2, h2.2, h1.2]⟩

/-- When contact-info detection sets an e-mail on a previously e-mail-free
record, the website it sets is `www.` plus the e-mail's domain part. -/
theorem detectContactInfo_link (cd : ContactData) (text : Str) (e : Str)
    (h0 : cd.email = none)
    (h : (detectContactInfoWithStructure cd text).email = some e) :
    (detectContactInfoWithStructure cd text).website =
      some (("www.").data ++ domainPart e) := by
  simp only [detectContactInfoWithStructure] at h ⊢
  cases hP : EmailParser.getPrimaryEmail (EmailParser.extractEmails text) with
  | none =>
    simp only [hP] at h ⊢
    cases hPh : PhoneParser.getPrimaryPhone (PhoneParser.extractPhones text) with
    | some q =>
      simp only [hPh] at h
      rw [h0] at h
      exact Option.noConfusion h
    | none =>
      simp only [hPh] at h
      rw [h0] at h
      exact Option.noConfusion h
  | some p =>
    have hc : List.count '@' p.email = 1 :=
      extractEmails_count text p (getPrimaryEmail_mem _ p hP)
    simp only [hP] at h ⊢
    cases hPh : PhoneParser.getPrimaryPhone (PhoneParser.extractPhones text) with
    | some q =>
      simp only [hPh] at h ⊢
      have he : p.email = e := by simpa using h
      rw [← he, deriveWebsite_eq p.email hc]
    | none =>
      simp only [hPh] at h ⊢
      have he : p.email = e := by simpa using h
      rw [← he, deriveWebsite_eq p.email hc]

/-- The basic parser's e-mail and website are those set by contact-info
detection. -/
theorem parseContactDataBasic_ew (r : OCRResult) :
    (parseContactDataBasic r).email =
      (detectContactInfoWithStructure
        { raw_text := r.text, confidence := r.confidence, fieldConfidences := {} }
        r.text).email ∧
    (parseContactDataBasic r).website =
      (detectContactInfoWithStructure
        { raw_text := r.text, confidence := r.confidence, fieldConfidences := {} }
        r.text).website := by
  constructor <;>
    (simp only [parseContactDataBasic]
     repeat' split
     all_goals
       simp [detectNameAndCompany_email, detectNameAndCompany_website])

/-- On the basic path, a set e-mail forces the linked website. -/
theorem parseContactDataBasic_link (r : OCRResult) (e : Str)
    (h : (parseContactDataBasic r).email = some e) :
    (parseContactDataBasic r).website = some (("www.").data ++ domainPart e) := by
  have hew := parseContactDataBasic_ew r
  rw [hew.1] at h
  rw [hew.2]
  exact detectContactInfo_link _ _ e rfl h

/-- On the layout path, a set e-mail forces the linked website. -/
theorem detectFieldsWithLayout_link (layout : LayoutAnalysis) (lines : List Str)
    (text : Str) (e : Str)
    (h : (detectFieldsWithLayout layout lines text).email = some e) :
    (detectFieldsWithLayout layout lines text).website =
      some (("www.").data ++ domainPart e) := by
  simp only [detectFieldsWithLayout] at h ⊢
  rw [(validateAndCleanFields_ew _).1, detectFieldsWithStructure_email] at h
  rw [(validateAndCleanFields_ew _).2, detectFieldsWithStructure_website]
  exact detectContactInfo_link _ _ e rfl h

/-- Claim C5: for every output contact record of the extraction pipeline,
if the e-mail field is set then the website field equals `www.` followed
by the e-mail's domain part (the text after the `@`). -/
theorem C5_website_from_email_domain (r : OCRResult) (e : Str)
    (h : (parseContactDataWithLayout r).email = some e) :
    (parseContactDataWithLayout r).website =
      some (("www.").data ++ domainPart e) := by
  unfold parseContactDataWithLayout at h ⊢
  cases hL : analyzeCardLayout r with
  | ok layout =>
    simp only [hL] at h ⊢
    exact detectFieldsWithLayout_link layout _ _ e h
  | error err =>
    simp only [hL] at h ⊢
    exact parseContactDataBasic_link r e h

/-- Witness for C5: the token-free card carrying `a@b.com` gets that
e-mail and the website `www.b.com`. -/
theorem C5_witness :
    (parseContactDataWithLayout emailInput).email = some (("a@b.com").data) ∧
    (parseContactDataWithLayout emailInput).website =
      some (("www.").data ++ domainPart (("a@b.com").data)) :=
  ⟨by decide, C5_website_from_email_domain emailInput (("a@b.com").data) (by decide)⟩

end VisitingCard
